import Mathlib

/-!
Shallow embedding of the dune-istl communication subsystem
(`communicator.hh`: `CommPolicy`, `CopyGatherScatter`,
`DatatypeCommunicator`, `BufferedCommunicator`) together with theorems
settling the specification claims about it.

Containers are modelled as Lean lists: a SizeOne container `V` is a
`List α` (one primitive element per index) and a VariableSize container
is a `List (List α)` (a block of primitive elements per index).
`sizeof(IndexedType)` is an explicit parameter `sz : Nat`.  Interface
information lists are lists of local positions (`List Nat`); an
interface is an association list from peer rank to the pair of
send/receive information lists, in `std::map` iteration order.
-/

namespace DuneComm

/-- `CommPolicy<V>::getSize` default implementation: always returns 1
(the `SizeOne` case). -/
def getSizeOne (_v : List α) (_index : Nat) : Nat := 1

/-- `CommPolicy<VariableBlockVector>::getSize`: returns `v[index].getsize()`,
the number of primitive elements in the block at `index`. -/
def getSizeVar (v : List (List α)) (index : Nat) : Nat := (v.getD index []).length

/-- `CopyGatherScatter::gather`: returns `vec[i]`. -/
def copyGather [Inhabited α] (vec : List α) (i : Nat) : α := vec.getD i default

/-- `CopyGatherScatter::scatter`: performs `vec[i] = v`. -/
def copyScatter (vec : List α) (v : α) (i : Nat) : List α := vec.set i v

/-- One entry of `Interface::interfaces()`: the `std::pair` of
`InterfaceInformation` lists for one peer.  `first` is the send list,
`second` is the receive list (lists of local positions). -/
structure InterfacePair where
  first : List Nat
  second : List Nat
deriving Repr, DecidableEq

/-- `Interface::interfaces()`: association list peer rank to
`InterfacePair`, in map-iteration (key-ascending) order. -/
abbrev IfaceMap := List (Nat × InterfacePair)

/-- `BufferedCommunicator::MessageInformation`: start of the message in
the buffer (counted in number of values) and its size in bytes. -/
structure MessageInformation where
  start_ : Nat
  size_ : Nat
deriving Repr, DecidableEq

/-- `BufferedCommunicator::InformationMap`: peer rank to the pair
(send-message information, receive-message information). -/
abbrev InformationMap := List (Nat × MessageInformation × MessageInformation)

/-- `MessageSizeCalculator<Data,SizeOne>::operator()(info)`:
the number of values in the message is the size of `info`. -/
def msgSizeOne (info : List Nat) : Nat := info.length

/-- `MessageSizeCalculator<Data,SizeOne>::operator()(data, info)`:
delegates to the one-argument overload, ignoring `data`. -/
def msgSizeOneData (_data : List α) (info : List Nat) : Nat := msgSizeOne info

/-- `MessageSizeCalculator<Data,VariableSize>::operator()(data, info)`:
`entries += CommPolicy::getSize(data, info[i])` for `i` below the size of `info`. -/
def msgSizeVar (data : List (List α)) (info : List Nat) : Nat :=
  (List.range info.length).foldl (fun entries i => entries + getSizeVar data (info.getD i 0)) 0

theorem msgSizeVar_eq_sum (data : List (List α)) (info : List Nat) :
    msgSizeVar data info = (info.map (getSizeVar data)).sum := by
  unfold msgSizeVar
  have h : ∀ (l : List Nat) (a : Nat),
      (List.range l.length).foldl (fun entries i => entries + getSizeVar data (l.getD i 0)) a
        = a + (l.map (getSizeVar data)).sum := by
    intro l
    induction l with
    | nil => simp
    | cons x xs ih =>
      intro a
      rw [List.length_cons, List.range_succ_eq_map, List.foldl_cons, List.foldl_map]
      simpa [Nat.add_assoc] using ih (a + getSizeVar data x)
  simpa using h info 0

instance : Inhabited InterfacePair := ⟨⟨[], []⟩⟩

instance : Inhabited MessageInformation := ⟨⟨0, 0⟩⟩

/-- The loop body shared by both `BufferedCommunicator::build` overloads,
with the per-peer message-size calculation abstracted into `cs`/`cr`:
one iteration records the peer's pair of `MessageInformation` values
(current element counters as starts, counts times `sz` as byte sizes)
and advances the element counters `bufferSize_[0]`/`bufferSize_[1]`. -/
def buildStep (sz : Nat) (cs cr : InterfacePair → Nat)
    (st : InformationMap × Nat × Nat) (interfacePair : Nat × InterfacePair) :
    InformationMap × Nat × Nat :=
  let noSend := cs interfacePair.2
  let noRecv := cr interfacePair.2
  (st.1 ++ [(interfacePair.1, ⟨st.2.1, noSend * sz⟩, ⟨st.2.2, noRecv * sz⟩)],
   st.2.1 + noSend, st.2.2 + noRecv)

/-- `BufferedCommunicator::build(interface)`, the overload enabled only for
`SizeOne` data: uses the one-argument `MessageSizeCalculator<Data,SizeOne>`.
Returns `(messageInformation_, bufferSize_[0], bufferSize_[1])`, the final
buffer sizes in bytes.  `lrank` models the `MPI_Comm_rank` query whose
result the function never reads. -/
def buildOne (sz : Nat) (lrank : Int) (interface : IfaceMap) :
    InformationMap × Nat × Nat :=
  let _ := lrank
  let st := interface.foldl
    (buildStep sz (fun p => msgSizeOne p.first) (fun p => msgSizeOne p.second)) ([], 0, 0)
  (st.1, st.2.1 * sz, st.2.2 * sz)

/-- `BufferedCommunicator::build(source, dest, interface)` instantiated at
`VariableSize` data: uses the two-argument
`MessageSizeCalculator<Data,VariableSize>` on the representative
containers. -/
def buildVar (sz : Nat) (source dest : List (List α)) (interface : IfaceMap) :
    InformationMap × Nat × Nat :=
  let st := interface.foldl
    (buildStep sz (fun p => msgSizeVar source p.first) (fun p => msgSizeVar dest p.second))
    ([], 0, 0)
  (st.1, st.2.1 * sz, st.2.2 * sz)

/-- Closed form of the `build` loop: the recorded entries carry the running
sums of the preceding counts as starts and count-times-`sz` byte sizes, and
the final counters are the total counts. -/
theorem buildFold_spec (sz : Nat) (cs cr : InterfacePair → Nat) (l : IfaceMap) :
    ∀ (m : InformationMap) (a b : Nat),
      l.foldl (buildStep sz cs cr) (m, a, b)
        = (m ++ (List.range l.length).map (fun k =>
             ((l.getD k default).1,
              ⟨a + ((l.take k).map (fun e => cs e.2)).sum, cs (l.getD k default).2 * sz⟩,
              ⟨b + ((l.take k).map (fun e => cr e.2)).sum, cr (l.getD k default).2 * sz⟩)),
           a + (l.map (fun e => cs e.2)).sum, b + (l.map (fun e => cr e.2)).sum) := by
  induction l with
  | nil => intro m a b; simp
  | cons x xs ih =>
    intro m a b
    rw [List.foldl_cons]
    show List.foldl _ (m ++ [(x.1, ⟨a, cs x.2 * sz⟩, ⟨b, cr x.2 * sz⟩)], a + cs x.2, b + cr x.2) xs
      = _
    rw [ih]
    rw [List.length_cons, List.range_succ_eq_map, List.map_cons, List.map_map]
    simp only [List.getD_cons_zero, List.take_zero, List.map_nil, List.sum_nil, Nat.add_zero,
      List.map_cons, List.sum_cons, Prod.mk.injEq]
    refine ⟨?_, by omega, by omega⟩
    rw [List.append_assoc, List.singleton_append]
    congr 1
    congr 1
    apply List.map_congr_left
    intro k _
    simp [Function.comp, List.getD_cons_succ, List.take_succ_cons, Nat.add_assoc]

theorem map_range_getD (l : List β) (d : β) :
    (List.range l.length).map (fun k => l.getD k d) = l := by
  induction l with
  | nil => simp
  | cons x xs ih =>
    rw [List.length_cons, List.range_succ_eq_map, List.map_cons, List.map_map]
    have h : ((fun k => (x :: xs).getD k d) ∘ Nat.succ) = fun k => xs.getD k d := by
      funext k; simp
    rw [List.getD_cons_zero, h, ih]

theorem getD_map_range {f : Nat → β} {k n : Nat} (h : k < n) (d : β) :
    ((List.range n).map f).getD k d = f k := by
  rw [List.getD_eq_getElem?_getD, List.getElem?_map, List.getElem?_range h]
  rfl

/-- `BufferedCommunicator::build(source, dest, interface)` instantiated at
`SizeOne` data: the generic two-container overload uses the two-argument
`MessageSizeCalculator<Data,SizeOne>` on the representative containers. -/
def buildOneData (sz : Nat) (source dest : List α) (interface : IfaceMap) :
    InformationMap × Nat × Nat :=
  let st := interface.foldl
    (buildStep sz (fun p => msgSizeOneData source p.first)
      (fun p => msgSizeOneData dest p.second)) ([], 0, 0)
  (st.1, st.2.1 * sz, st.2.2 * sz)

/-- C9: for a SizeOne container the two overloads of the message-size
calculator agree and ignore the container entirely: the two-argument
overload equals the one-argument overload, both return the size of the
information list, and consequently the representative containers passed
to the two-container `build` never affect SizeOne buffer sizing. -/
theorem C9_sizeone_calculator_ignores_data :
    (∀ (α : Type) (data : List α) (info : List Nat),
        msgSizeOneData data info = msgSizeOne info ∧ msgSizeOne info = info.length)
    ∧ (∀ (α : Type) (sz : Nat) (s d s' d' : List α) (interface : IfaceMap),
        buildOneData sz s d interface = buildOneData sz s' d' interface) := by
  exact ⟨fun α data info => ⟨rfl, rfl⟩, fun α sz s d s' d' interface => rfl⟩

/-- C2: both `BufferedCommunicator::build` overloads record, per peer in
interface-iteration order, the element counts `noSend`/`noRecv` (list
length for SizeOne, sum of `CommPolicy::getSize` over the listed positions
of the representative container for VariableSize), with byte sizes the
count times `sizeof(IndexedType)`, offsets the running sums of the
preceding peers' counts, and total buffer sizes the sum over all peers
times `sizeof(IndexedType)`. -/
theorem C2_build_offsets_and_sizes (α : Type) (sz : Nat) (lrank : Int)
    (interface : IfaceMap) (source dest : List (List α)) :
    ((∀ k, k < interface.length →
        (buildOne sz lrank interface).1.getD k default
          = ((interface.getD k default).1,
             ⟨((interface.take k).map (fun e => e.2.first.length)).sum,
              (interface.getD k default).2.first.length * sz⟩,
             ⟨((interface.take k).map (fun e => e.2.second.length)).sum,
              (interface.getD k default).2.second.length * sz⟩))
      ∧ (buildOne sz lrank interface).2.1
          = (interface.map (fun e => e.2.first.length)).sum * sz
      ∧ (buildOne sz lrank interface).2.2
          = (interface.map (fun e => e.2.second.length)).sum * sz)
    ∧ ((∀ k, k < interface.length →
        (buildVar sz source dest interface).1.getD k default
          = ((interface.getD k default).1,
             ⟨((interface.take k).map
                 (fun e => (e.2.first.map (getSizeVar source)).sum)).sum,
              ((interface.getD k default).2.first.map (getSizeVar source)).sum * sz⟩,
             ⟨((interface.take k).map
                 (fun e => (e.2.second.map (getSizeVar dest)).sum)).sum,
              ((interface.getD k default).2.second.map (getSizeVar dest)).sum * sz⟩))
      ∧ (buildVar sz source dest interface).2.1
          = (interface.map (fun e => (e.2.first.map (getSizeVar source)).sum)).sum * sz
      ∧ (buildVar sz source dest interface).2.2
          = (interface.map (fun e => (e.2.second.map (getSizeVar dest)).sum)).sum * sz) := by
  constructor
  · unfold buildOne
    rw [buildFold_spec]
    refine ⟨fun k hk => ?_, by simp [msgSizeOne], by simp [msgSizeOne]⟩
    simp only [List.nil_append, msgSizeOne]
    rw [getD_map_range hk]
    simp
  · unfold buildVar
    rw [buildFold_spec]
    simp only [msgSizeVar_eq_sum]
    refine ⟨fun k hk => ?_, by simp, by simp⟩
    simp only [List.nil_append]
    rw [getD_map_range hk]
    simp

/-- `MessageGatherer<Data,GatherScatter,FORWARD,SizeOne>::operator()`:
walks the interface pairs in iteration order; for each peer it iterates
the send list (when `FORWARD`) or the receive list (otherwise) and
executes `buffer[index++] = GatherScatter::gather(data, list[i])`.  The
returned list is the final send-buffer contents: its `k`-th element is
the value written at `buffer[k]`.  `rank` models the `MPI_Comm_rank`
query whose result the code never reads. -/
def gatherOne (gs : List α → Nat → α) (FORWARD : Bool) (rank : Int)
    (interface : IfaceMap) (data : List α) : List α :=
  let _ := rank
  interface.flatMap (fun interfacePair =>
    (List.range (if FORWARD then interfacePair.2.first.length
                 else interfacePair.2.second.length)).map
      (fun i => gs data (if FORWARD then interfacePair.2.first.getD i 0
                         else interfacePair.2.second.getD i 0)))

/-- `MessageGatherer<Data,GatherScatter,FORWARD,VariableSize>::operator()`:
as `gatherOne` but with the inner subindex loop
`for j < CommPolicy::getSize(data, local): buffer[index++] = gather(data, local, j)`.
The source's list lookup is written `interfacePair->second->first[i]`;
following the spec's direction this member-access-through-pair is the
same list indexing as the scalar path's `second.first[i]`.  `rank` models
the unused `MPI_Comm_rank` query; the unused local variable `proc` of the
loop body is dropped. -/
def gatherVar (gs : List (List α) → Nat → Nat → α) (FORWARD : Bool) (rank : Int)
    (interface : IfaceMap) (data : List (List α)) : List α :=
  let _ := rank
  interface.flatMap (fun interfacePair =>
    (List.range (if FORWARD then interfacePair.2.first.length
                 else interfacePair.2.second.length)).flatMap
      (fun i =>
        let loc := if FORWARD then interfacePair.2.first.getD i 0
                   else interfacePair.2.second.getD i 0
        (List.range (getSizeVar data loc)).map (fun j => gs data loc j)))

/-- C10: for a SizeOne container gathered over the same interface that
`build` sized the buffers from, the number of buffer slots written equals
the sum of the send-list lengths over all peers; the allocated send
buffer holds exactly that many elements (its byte size is that count
times `sizeof(IndexedType)`); hence every written index `k` satisfies
`(k+1)*sizeof(IndexedType) <= bufferSize` and the optional bounds
assertion in the gather loop cannot fail. -/
theorem C10_sizeone_gather_within_buffer (α : Type) (gs : List α → Nat → α)
    (sz : Nat) (rank lrank : Int) (interface : IfaceMap) (data : List α) :
    (gatherOne gs true rank interface data).length
        = (interface.map (fun e => e.2.first.length)).sum
    ∧ (buildOne sz lrank interface).2.1
        = (gatherOne gs true rank interface data).length * sz
    ∧ ∀ k, k < (gatherOne gs true rank interface data).length →
        (k + 1) * sz ≤ (buildOne sz lrank interface).2.1 := by
  have hlen : (gatherOne gs true rank interface data).length
      = (interface.map (fun e => e.2.first.length)).sum := by
    unfold gatherOne
    rw [List.length_flatMap]
    congr 1
    apply List.map_congr_left
    intro e _
    simp
  refine ⟨hlen, ?_, ?_⟩
  · rw [hlen]
    unfold buildOne
    rw [buildFold_spec]
    simp [msgSizeOne]
  · intro k hk
    unfold buildOne
    rw [buildFold_spec]
    simp only [msgSizeOne]
    have : k + 1 ≤ (interface.map (fun e => e.2.first.length)).sum := by
      rw [hlen] at hk; omega
    calc (k + 1) * sz ≤ (interface.map (fun e => e.2.first.length)).sum * sz :=
          Nat.mul_le_mul_right sz this
      _ = _ := by simp

theorem foldl_range_getD (l : List Nat) (g : σ → Nat → σ) (st : σ) :
    (List.range l.length).foldl (fun s i => g s (l.getD i 0)) st = l.foldl g st := by
  conv_rhs => rw [← map_range_getD l 0]
  rw [List.foldl_map]

/-- `MessageScatterer<Data,GatherScatter,FORWARD,SizeOne>::operator()`:
looks the peer up in the interface (`interface.interfaces().find(proc)`),
selects the receive list (when `FORWARD`) or the send list (otherwise) and
performs `GatherScatter::scatter(data, buffer[i], info[i])` for `i` below
the size of `info`.  Returns the updated container together with the list
of buffer slots read (relative to the start of the peer's slab), in read
order.  A failed lookup is the assertion-failure path; the data is
returned unchanged there. -/
def scatterOnePeer [Inhabited α] (sc : List α → α → Nat → List α) (FORWARD : Bool)
    (interface : IfaceMap) (data : List α) (buffer : List α) (proc : Nat) :
    List α × List Nat :=
  match interface.lookup proc with
  | none => (data, [])
  | some infoPair =>
    let info := if FORWARD then infoPair.second else infoPair.first
    (List.range info.length).foldl
      (fun st i => (sc st.1 (buffer.getD i default) (info.getD i 0), st.2 ++ [i]))
      (data, [])

/-- The inner subindex loop of
`MessageScatterer<Data,GatherScatter,FORWARD,VariableSize>::operator()`:
`for (j = 0; j < CommPolicy::getSize(data, pos); j++)
   scatter(data, buffer[index++], pos, j)`.
The state carries (data, running index, buffer slots read, scatter calls
made); the loop bound is the block size of the data at loop entry, which
agrees with the source's re-evaluated bound whenever the scatter
preserves block sizes. -/
def scatterVarInner [Inhabited α] (sc : List (List α) → α → Nat → Nat → List (List α))
    (buffer : List α) (st : List (List α) × Nat × List Nat × List (Nat × Nat))
    (pos : Nat) : List (List α) × Nat × List Nat × List (Nat × Nat) :=
  (List.range (getSizeVar st.1 pos)).foldl
    (fun st2 j =>
      (sc st2.1 (buffer.getD st2.2.1 default) pos j,
       st2.2.1 + 1, st2.2.2.1 ++ [st2.2.1], st2.2.2.2 ++ [(pos, j)]))
    st

/-- `MessageScatterer<Data,GatherScatter,FORWARD,VariableSize>::operator()`:
looks the peer up in the interface, selects the receive list (when
`FORWARD`) or the send list (otherwise) and runs the doubly nested
scatter loop with a single running buffer index.  Returns the updated
container, the buffer slots read (relative to the slab start, in read
order) and the `(position, subindex)` arguments of the scatter calls, in
call order. -/
def scatterVarPeer [Inhabited α] (sc : List (List α) → α → Nat → Nat → List (List α))
    (FORWARD : Bool) (interface : IfaceMap) (data : List (List α)) (buffer : List α)
    (proc : Nat) : List (List α) × List Nat × List (Nat × Nat) :=
  match interface.lookup proc with
  | none => (data, [], [])
  | some infoPair =>
    let info := if FORWARD then infoPair.second else infoPair.first
    let st := (List.range info.length).foldl
      (fun st i => scatterVarInner sc buffer st (info.getD i 0)) (data, 0, [], [])
    (st.1, st.2.2.1, st.2.2.2)

theorem scatterVarInner_spec [Inhabited α]
    (sc : List (List α) → α → Nat → Nat → List (List α)) (buffer : List α)
    (hpres : ∀ d v p j q, getSizeVar (sc d v p j) q = getSizeVar d q) (pos : Nat) :
    ∀ (n : Nat) (d : List (List α)) (idx : Nat) (rs : List Nat) (cl : List (Nat × Nat)),
      ((List.range n).foldl
        (fun st2 j =>
          (sc st2.1 (buffer.getD st2.2.1 default) pos j,
           st2.2.1 + 1, st2.2.2.1 ++ [st2.2.1], st2.2.2.2 ++ [(pos, j)]))
        (d, idx, rs, cl)).2.1 = idx + n
      ∧ ((List.range n).foldl
        (fun st2 j =>
          (sc st2.1 (buffer.getD st2.2.1 default) pos j,
           st2.2.1 + 1, st2.2.2.1 ++ [st2.2.1], st2.2.2.2 ++ [(pos, j)]))
        (d, idx, rs, cl)).2.2.1 = rs ++ List.range' idx n
      ∧ ((List.range n).foldl
        (fun st2 j =>
          (sc st2.1 (buffer.getD st2.2.1 default) pos j,
           st2.2.1 + 1, st2.2.2.1 ++ [st2.2.1], st2.2.2.2 ++ [(pos, j)]))
        (d, idx, rs, cl)).2.2.2 = cl ++ (List.range n).map (fun j => (pos, j))
      ∧ ∀ q, getSizeVar ((List.range n).foldl
        (fun st2 j =>
          (sc st2.1 (buffer.getD st2.2.1 default) pos j,
           st2.2.1 + 1, st2.2.2.1 ++ [st2.2.1], st2.2.2.2 ++ [(pos, j)]))
        (d, idx, rs, cl)).1 q = getSizeVar d q := by
  intro n
  induction n with
  | zero => intro d idx rs cl; simp
  | succ n ih =>
    intro d idx rs cl
    rw [List.range_succ]
    simp only [List.foldl_append, List.foldl_cons, List.foldl_nil]
    obtain ⟨h1, h2, h3, h4⟩ := ih d idx rs cl
    set r := (List.range n).foldl
        (fun st2 j =>
          (sc st2.1 (buffer.getD st2.2.1 default) pos j,
           st2.2.1 + 1, st2.2.2.1 ++ [st2.2.1], st2.2.2.2 ++ [(pos, j)]))
        (d, idx, rs, cl) with hr
    refine ⟨by simp [h1, Nat.add_assoc], ?_, ?_, ?_⟩
    · simp only [h2, h1, List.range'_concat, List.append_assoc, one_mul]
    · simp only [h3, List.range_succ, List.map_append, List.map_cons, List.map_nil,
        List.append_assoc]
    · intro q
      rw [hpres]
      exact h4 q

theorem scatterVarFold_spec [Inhabited α]
    (sc : List (List α) → α → Nat → Nat → List (List α)) (buffer : List α)
    (hpres : ∀ d v p j q, getSizeVar (sc d v p j) q = getSizeVar d q) :
    ∀ (ps : List Nat) (d : List (List α)) (idx : Nat) (rs : List Nat)
      (cl : List (Nat × Nat)),
      (ps.foldl (scatterVarInner sc buffer) (d, idx, rs, cl)).2.1
          = idx + (ps.map (getSizeVar d)).sum
      ∧ (ps.foldl (scatterVarInner sc buffer) (d, idx, rs, cl)).2.2.1
          = rs ++ List.range' idx ((ps.map (getSizeVar d)).sum)
      ∧ (ps.foldl (scatterVarInner sc buffer) (d, idx, rs, cl)).2.2.2
          = cl ++ ps.flatMap
              (fun p => (List.range (getSizeVar d p)).map (fun j => (p, j)))
      ∧ ∀ q, getSizeVar (ps.foldl (scatterVarInner sc buffer) (d, idx, rs, cl)).1 q
          = getSizeVar d q := by
  intro ps
  induction ps with
  | nil => intro d idx rs cl; simp
  | cons p ps ih =>
    intro d idx rs cl
    rw [List.foldl_cons]
    have hinner := scatterVarInner_spec sc buffer hpres p (getSizeVar d p) d idx rs cl
    rcases hst : scatterVarInner sc buffer (d, idx, rs, cl) p with ⟨d1, idx1, rs1, cl1⟩
    have hfold : (List.range (getSizeVar d p)).foldl
        (fun st2 j =>
          (sc st2.1 (buffer.getD st2.2.1 default) p j,
           st2.2.1 + 1, st2.2.2.1 ++ [st2.2.1], st2.2.2.2 ++ [(p, j)]))
        (d, idx, rs, cl) = (d1, idx1, rs1, cl1) := by
      rw [← hst]; rfl
    rw [hfold] at hinner
    obtain ⟨h1, h2, h3, h4⟩ := hinner
    simp only at h1 h2 h3 h4
    obtain ⟨g1, g2, g3, g4⟩ := ih d1 idx1 rs1 cl1
    have hmap : ps.map (getSizeVar d1) = ps.map (getSizeVar d) :=
      List.map_congr_left (fun x _ => h4 x)
    have hbind : ps.flatMap (fun p' => (List.range (getSizeVar d1 p')).map (fun j => (p', j)))
        = ps.flatMap (fun p' => (List.range (getSizeVar d p')).map (fun j => (p', j))) :=
      List.flatMap_congr (fun x _ => by rw [h4 x])
    refine ⟨?_, ?_, ?_, ?_⟩
    · rw [g1, hmap, h1, List.map_cons, List.sum_cons]; omega
    · rw [g2, hmap, h2, h1, List.map_cons, List.sum_cons, List.append_assoc]
      have := List.range'_append idx (getSizeVar d p) (ps.map (getSizeVar d)).sum 1
      simp only [one_mul] at this
      rw [Nat.add_comm (getSizeVar d p) (ps.map (getSizeVar d)).sum, ← this]
    · rw [g3, hbind, h3, List.flatMap_cons, List.append_assoc]
    · intro q; rw [g4, h4]

/-- Copy gather policy at VariableSize data (spec's Copy policy in its
subindex form): `gather(vec, i, j)` reads `vec[i][j]`. -/
def copyGatherVar [Inhabited α] (vec : List (List α)) (i j : Nat) : α :=
  (vec.getD i []).getD j default

/-- Copy scatter policy at VariableSize data: `scatter(vec, v, i, j)`
writes `vec[i][j] = v`. -/
def copyScatterVar (vec : List (List α)) (v : α) (i j : Nat) : List (List α) :=
  vec.set i ((vec.getD i []).set j v)

theorem copyScatterVar_preserves_sizes (vec : List (List α)) (v : α) (i j q : Nat) :
    getSizeVar (copyScatterVar vec v i j) q = getSizeVar vec q := by
  unfold copyScatterVar getSizeVar
  by_cases hq : i = q
  · subst hq
    rcases Nat.lt_or_ge i vec.length with hi | hi
    · simp [List.getD_eq_getElem?_getD, List.getElem?_set, hi]
    · rw [List.set_eq_of_length_le hi]
  · simp [List.getD_eq_getElem?_getD, List.getElem?_set, hq]

/-- C3: when a peer's message is scattered in the VariableSize case, the
scatter is invoked exactly once for each pair `(i, j)` with `i` a
position of the peer's selected information list and `j` a subindex
below `CommPolicy::getSize(data, i)`, in ascending
(position-in-list, subindex) order (the calls list is exactly that
enumeration), consuming consecutive buffer slots (the relative slots
read are `0, 1, 2, ...`); and in the built plan the byte size of the
send slab to a peer is the sum of `getSize` over the peer's send list
times the primitive element size.  The scatter is assumed to preserve
block sizes, as the Copy policy does. -/
theorem C3_varsize_scatter_enumeration (α : Type) [Inhabited α]
    (sc : List (List α) → α → Nat → Nat → List (List α)) (FORWARD : Bool)
    (interface : IfaceMap) (data : List (List α)) (buffer : List α)
    (proc : Nat) (infoPair : InterfacePair)
    (hpres : ∀ d v p j q, getSizeVar (sc d v p j) q = getSizeVar d q)
    (hfind : interface.lookup proc = some infoPair) :
    (scatterVarPeer sc FORWARD interface data buffer proc).2.2
        = (if FORWARD then infoPair.second else infoPair.first).flatMap
            (fun p => (List.range (getSizeVar data p)).map (fun j => (p, j)))
    ∧ (scatterVarPeer sc FORWARD interface data buffer proc).2.1
        = List.range (((if FORWARD then infoPair.second else infoPair.first).map
            (getSizeVar data)).sum)
    ∧ ∀ (β : Type) (sz : Nat) (source dest : List (List β)) (k : Nat),
        k < interface.length →
          ((buildVar sz source dest interface).1.getD k default).2.1.size_
            = (((interface.getD k default).2.first).map (getSizeVar source)).sum * sz := by
  have hmain : (scatterVarPeer sc FORWARD interface data buffer proc).2.2
        = (if FORWARD then infoPair.second else infoPair.first).flatMap
            (fun p => (List.range (getSizeVar data p)).map (fun j => (p, j)))
      ∧ (scatterVarPeer sc FORWARD interface data buffer proc).2.1
        = List.range (((if FORWARD then infoPair.second else infoPair.first).map
            (getSizeVar data)).sum) := by
    unfold scatterVarPeer
    rw [hfind]
    simp only
    rw [foldl_range_getD _ (scatterVarInner sc buffer)]
    obtain ⟨h1, h2, h3, h4⟩ := scatterVarFold_spec sc buffer hpres
      (if FORWARD then infoPair.second else infoPair.first) data 0 [] []
    rw [h3, h2]
    exact ⟨by simp, by simp [List.range_eq_range']⟩
  refine ⟨hmain.1, hmain.2, ?_⟩
  intro β sz source dest k hk
  unfold buildVar
  rw [buildFold_spec]
  simp only [List.nil_append]
  rw [getD_map_range hk]
  simp [msgSizeVar_eq_sum]

/-- Witness for C3 at a concrete peer: one peer (rank 3) with send list
`[0]` and receive list `[1, 0]` over blocks `[[5, 6], [7]]`. -/
theorem C3_varsize_scatter_enumeration_witness :
    (scatterVarPeer copyScatterVar true [(3, ⟨[0], [1, 0]⟩)]
        [[5, 6], [7]] [100, 101, 102] 3).2.2
      = (if true then ([1, 0] : List Nat) else [0]).flatMap
          (fun p => (List.range (getSizeVar [[5, 6], [7]] p)).map (fun j => (p, j)))
    ∧ (scatterVarPeer copyScatterVar true [(3, ⟨[0], [1, 0]⟩)]
        [[5, 6], [7]] [100, 101, 102] 3).2.1
      = List.range (((if true then ([1, 0] : List Nat) else [0]).map
          (getSizeVar [[5, 6], [7]])).sum)
    ∧ ∀ (β : Type) (sz : Nat) (source dest : List (List β)) (k : Nat),
        k < ([(3, (⟨[0], [1, 0]⟩ : InterfacePair))] : IfaceMap).length →
          ((buildVar sz source dest [(3, ⟨[0], [1, 0]⟩)]).1.getD k default).2.1.size_
            = ((([(3, (⟨[0], [1, 0]⟩ : InterfacePair))] : IfaceMap).getD k
                default).2.first.map (getSizeVar source)).sum * sz :=
  C3_varsize_scatter_enumeration Nat copyScatterVar true [(3, ⟨[0], [1, 0]⟩)]
    [[5, 6], [7]] [100, 101, 102] 3 ⟨[0], [1, 0]⟩
    (fun d v p j q => copyScatterVar_preserves_sizes d v p j q) rfl

/-- Observable steps of `BufferedCommunicator::sendRecv`, in program
order: the gatherer's buffer writes, the non-blocking `MPI_Irecv` posts
and the non-blocking synchronous `MPI_Issend` posts (peer rank, element
offset of the slab, byte count), the per-peer scatter run when that
peer's receive completes (with the absolute receive-buffer slots it
reads, in read order), the `MPI_Wait` on each send request, and the
local success flag contributed to the concluding `MPI_Allreduce`. -/
inductive Event where
  | gatherWrite (index : Nat)
  | postRecv (proc : Nat) (start : Nat) (bytes : Nat)
  | postSend (proc : Nat) (start : Nat) (bytes : Nat)
  | scatterPeer (proc : Nat) (reads : List Nat)
  | waitSend (i : Nat)
  | reduce (success : Nat)
deriving Repr, DecidableEq

/-- What one call of `BufferedCommunicator::sendRecv` produces in the
embedding: the final destination container, the send-buffer contents,
the event trace, the local `success` flag handed to the `MPI_Allreduce`,
and the ranks printed in diagnostic error messages. -/
structure ExchangeOutcome (α δ : Type) where
  dest : δ
  sendBuffer : List α
  events : List Event
  success : Nat
  diag : List Int
deriving Repr, DecidableEq

/-- `BufferedCommunicator::sendRecv<GatherScatter,FORWARD>` at SizeOne
data.  Beyond the communicator state (`interface`, the built `msgInfo`)
and the containers, the transport is split out explicitly: `recvBuffer`
is the receive buffer as the transport fills it (the scatter loop only
reads it), `order` is the sequence of request indices `MPI_Waitany`
reports, and `recvErr i` / `sendErr i` tell whether the `i`-th
receive/send request reports a transport error.  `rank` is the value
`MPI_Comm_rank` returns; the code reads it only for diagnostic output.
The body mirrors the source: gather into the send buffer, post one
`MPI_Irecv` per peer, post one `MPI_Issend` per peer, scatter each
peer's slab as its receive completes (skipping the scatter and clearing
`success` on a receive error), wait for each send (clearing `success` on
a send error), and contribute `success` to the `MPI_Allreduce`.

`scStepOne` is one iteration of the receive-completion loop:
`MPI_Waitany` reports request `finished`; on a transport error the
scatter is skipped, `success` cleared and the rank printed; otherwise
`processMap[finished]` identifies the peer, `messageInformation_` is
looked up, and the peer's slab (receive buffer offset by the recorded
start) is scattered.  The state is (destination container, scatter
events so far, `success`, printed ranks). -/
def scStepOne [Inhabited α] (sc : List α → α → Nat → List α) (FORWARD : Bool)
    (rank : Int) (interface : IfaceMap) (msgInfo : InformationMap)
    (recvBuffer : List α) (recvErr : Nat → Bool)
    (st : List α × List Event × Nat × List Int) (finished : Nat) :
    List α × List Event × Nat × List Int :=
  if recvErr finished then
    (st.1, st.2.1, 0, st.2.2.2 ++ [rank])
  else
    let proc := (msgInfo.map Prod.fst).getD finished 0
    match msgInfo.lookup proc with
    | none => st
    | some infoPair =>
      let mi := if FORWARD then infoPair.2 else infoPair.1
      let r := scatterOnePeer sc FORWARD interface st.1 (recvBuffer.drop mi.start_) proc
      (r.1, st.2.1 ++ [Event.scatterPeer proc (r.2.map (· + mi.start_))],
       st.2.2.1, st.2.2.2)

/-- One iteration of the send-completion loop: `MPI_Wait` on the `i`-th
send request; on an error clear `success` and print the rank. -/
def waitStep (rank : Int) (sendErr : Nat → Bool)
    (st : List Event × Nat × List Int) (i : Nat) : List Event × Nat × List Int :=
  (st.1 ++ [Event.waitSend i],
   if sendErr i then 0 else st.2.1,
   if sendErr i then st.2.2 ++ [rank] else st.2.2)

/-- `BufferedCommunicator::sendRecv<GatherScatter,FORWARD>` at SizeOne
data: gather into the send buffer, post the receives, post the sends,
run the receive-completion loop over `order`, run the send-wait loop,
and record the local success flag for the `MPI_Allreduce`. -/
def sendRecvOne [Inhabited α] (gs : List α → Nat → α) (sc : List α → α → Nat → List α)
    (FORWARD : Bool) (rank : Int) (interface : IfaceMap) (msgInfo : InformationMap)
    (source dest : List α) (recvBuffer : List α) (order : List Nat)
    (recvErr sendErr : Nat → Bool) : ExchangeOutcome α (List α) :=
  let sendBuffer := gatherOne gs FORWARD rank interface source
  let gatherEvts := (List.range sendBuffer.length).map Event.gatherWrite
  let recvEvts := msgInfo.map (fun info =>
    let mi := if FORWARD then info.2.2 else info.2.1
    Event.postRecv info.1 mi.start_ mi.size_)
  let sendEvts := msgInfo.map (fun info =>
    let mi := if FORWARD then info.2.1 else info.2.2
    Event.postSend info.1 mi.start_ mi.size_)
  let scState := order.foldl
    (scStepOne sc FORWARD rank interface msgInfo recvBuffer recvErr)
    (dest, ([] : List Event), 1, ([] : List Int))
  let waitState := (List.range msgInfo.length).foldl (waitStep rank sendErr)
    (([] : List Event), scState.2.2.1, scState.2.2.2)
  { dest := scState.1,
    sendBuffer := sendBuffer,
    events := gatherEvts ++ recvEvts ++ sendEvts ++ scState.2.1 ++ waitState.1
      ++ [Event.reduce waitState.2.1],
    success := waitState.2.1,
    diag := waitState.2.2 }

/-- The VariableSize counterpart of `scStepOne`: one iteration of the
receive-completion loop using the VariableSize scatterer. -/
def scStepVar [Inhabited α] (sc : List (List α) → α → Nat → Nat → List (List α))
    (FORWARD : Bool) (rank : Int) (interface : IfaceMap) (msgInfo : InformationMap)
    (recvBuffer : List α) (recvErr : Nat → Bool)
    (st : List (List α) × List Event × Nat × List Int) (finished : Nat) :
    List (List α) × List Event × Nat × List Int :=
  if recvErr finished then
    (st.1, st.2.1, 0, st.2.2.2 ++ [rank])
  else
    let proc := (msgInfo.map Prod.fst).getD finished 0
    match msgInfo.lookup proc with
    | none => st
    | some infoPair =>
      let mi := if FORWARD then infoPair.2 else infoPair.1
      let r := scatterVarPeer sc FORWARD interface st.1 (recvBuffer.drop mi.start_) proc
      (r.1, st.2.1 ++ [Event.scatterPeer proc (r.2.1.map (· + mi.start_))],
       st.2.2.1, st.2.2.2)

/-- `BufferedCommunicator::sendRecv<GatherScatter,FORWARD>` at
VariableSize data; as `sendRecvOne` but with the VariableSize gatherer
and scatterer. -/
def sendRecvVar [Inhabited α] (gs : List (List α) → Nat → Nat → α)
    (sc : List (List α) → α → Nat → Nat → List (List α))
    (FORWARD : Bool) (rank : Int) (interface : IfaceMap) (msgInfo : InformationMap)
    (source dest : List (List α)) (recvBuffer : List α) (order : List Nat)
    (recvErr sendErr : Nat → Bool) : ExchangeOutcome α (List (List α)) :=
  let sendBuffer := gatherVar gs FORWARD rank interface source
  let gatherEvts := (List.range sendBuffer.length).map Event.gatherWrite
  let recvEvts := msgInfo.map (fun info =>
    let mi := if FORWARD then info.2.2 else info.2.1
    Event.postRecv info.1 mi.start_ mi.size_)
  let sendEvts := msgInfo.map (fun info =>
    let mi := if FORWARD then info.2.1 else info.2.2
    Event.postSend info.1 mi.start_ mi.size_)
  let scState := order.foldl
    (scStepVar sc FORWARD rank interface msgInfo recvBuffer recvErr)
    (dest, ([] : List Event), 1, ([] : List Int))
  let waitState := (List.range msgInfo.length).foldl (waitStep rank sendErr)
    (([] : List Event), scState.2.2.1, scState.2.2.2)
  { dest := scState.1,
    sendBuffer := sendBuffer,
    events := gatherEvts ++ recvEvts ++ sendEvts ++ scState.2.1 ++ waitState.1
      ++ [Event.reduce waitState.2.1],
    success := waitState.2.1,
    diag := waitState.2.2 }

/-- `BufferedCommunicator::forward(source, dest)`: dispatches to
`sendRecv<GatherScatter,true>(source, dest)`. -/
def forwardTwo [Inhabited α] (gs : List α → Nat → α) (sc : List α → α → Nat → List α)
    (rank : Int) (interface : IfaceMap) (msgInfo : InformationMap)
    (source dest : List α) (recvBuffer : List α) (order : List Nat)
    (recvErr sendErr : Nat → Bool) : ExchangeOutcome α (List α) :=
  sendRecvOne gs sc true rank interface msgInfo source dest recvBuffer order recvErr sendErr

/-- `BufferedCommunicator::backward(source, dest)`: dispatches to
`sendRecv<GatherScatter,false>(dest, source)` — the `dest` argument is
gathered from and the `source` argument is scattered into. -/
def backwardTwo [Inhabited α] (gs : List α → Nat → α) (sc : List α → α → Nat → List α)
    (rank : Int) (interface : IfaceMap) (msgInfo : InformationMap)
    (source dest : List α) (recvBuffer : List α) (order : List Nat)
    (recvErr sendErr : Nat → Bool) : ExchangeOutcome α (List α) :=
  sendRecvOne gs sc false rank interface msgInfo dest source recvBuffer order recvErr sendErr

/-- `BufferedCommunicator::forward(data)`: dispatches to
`sendRecv<GatherScatter,true>(data, data)`. -/
def forwardSame [Inhabited α] (gs : List α → Nat → α) (sc : List α → α → Nat → List α)
    (rank : Int) (interface : IfaceMap) (msgInfo : InformationMap)
    (data : List α) (recvBuffer : List α) (order : List Nat)
    (recvErr sendErr : Nat → Bool) : ExchangeOutcome α (List α) :=
  sendRecvOne gs sc true rank interface msgInfo data data recvBuffer order recvErr sendErr

/-- `BufferedCommunicator::backward(data)`: dispatches to
`sendRecv<GatherScatter,false>(data, data)`. -/
def backwardSame [Inhabited α] (gs : List α → Nat → α) (sc : List α → α → Nat → List α)
    (rank : Int) (interface : IfaceMap) (msgInfo : InformationMap)
    (data : List α) (recvBuffer : List α) (order : List Nat)
    (recvErr sendErr : Nat → Bool) : ExchangeOutcome α (List α) :=
  sendRecvOne gs sc false rank interface msgInfo data data recvBuffer order recvErr sendErr

/-- C7: the same-container calls `forward(data)` and `backward(data)`
are observationally equivalent to the two-container calls with source
and dest both aliased to `data`: each pair dispatches to the identical
`sendRecv` with the same `FORWARD` flag and the same argument roles —
`forward` gathers from its first and scatters into its second argument,
while `backward` gathers from its `dest` argument and scatters into its
`source` argument. -/
theorem C7_same_container_aliases_two_container (α : Type) [Inhabited α]
    (gs : List α → Nat → α) (sc : List α → α → Nat → List α)
    (rank : Int) (interface : IfaceMap) (msgInfo : InformationMap)
    (data source dest recvBuffer : List α) (order : List Nat)
    (recvErr sendErr : Nat → Bool) :
    forwardSame gs sc rank interface msgInfo data recvBuffer order recvErr sendErr
      = forwardTwo gs sc rank interface msgInfo data data recvBuffer order recvErr sendErr
    ∧ backwardSame gs sc rank interface msgInfo data recvBuffer order recvErr sendErr
      = backwardTwo gs sc rank interface msgInfo data data recvBuffer order recvErr sendErr
    ∧ forwardTwo gs sc rank interface msgInfo source dest recvBuffer order recvErr sendErr
      = sendRecvOne gs sc true rank interface msgInfo source dest recvBuffer order
          recvErr sendErr
    ∧ backwardTwo gs sc rank interface msgInfo source dest recvBuffer order recvErr sendErr
      = sendRecvOne gs sc false rank interface msgInfo dest source recvBuffer order
          recvErr sendErr :=
  ⟨rfl, rfl, rfl, rfl⟩

theorem gatherOne_rank_indep [Inhabited α] (gs : List α → Nat → α) (FORWARD : Bool)
    (interface : IfaceMap) (data : List α) (r1 r2 : Int) :
    gatherOne gs FORWARD r1 interface data = gatherOne gs FORWARD r2 interface data := rfl

theorem gatherVar_rank_indep [Inhabited α] (gv : List (List α) → Nat → Nat → α)
    (FORWARD : Bool) (interface : IfaceMap) (data : List (List α)) (r1 r2 : Int) :
    gatherVar gv FORWARD r1 interface data = gatherVar gv FORWARD r2 interface data := rfl

theorem scStepOne_fold_rank_indep [Inhabited α] (sc : List α → α → Nat → List α)
    (FORWARD : Bool) (interface : IfaceMap) (msgInfo : InformationMap)
    (recvBuffer : List α) (recvErr : Nat → Bool) (r1 r2 : Int) :
    ∀ (order : List Nat) (d : List α) (e : List Event) (s : Nat) (g1 g2 : List Int),
      (order.foldl (scStepOne sc FORWARD r1 interface msgInfo recvBuffer recvErr)
          (d, e, s, g1)).1
        = (order.foldl (scStepOne sc FORWARD r2 interface msgInfo recvBuffer recvErr)
          (d, e, s, g2)).1
      ∧ (order.foldl (scStepOne sc FORWARD r1 interface msgInfo recvBuffer recvErr)
          (d, e, s, g1)).2.1
        = (order.foldl (scStepOne sc FORWARD r2 interface msgInfo recvBuffer recvErr)
          (d, e, s, g2)).2.1
      ∧ (order.foldl (scStepOne sc FORWARD r1 interface msgInfo recvBuffer recvErr)
          (d, e, s, g1)).2.2.1
        = (order.foldl (scStepOne sc FORWARD r2 interface msgInfo recvBuffer recvErr)
          (d, e, s, g2)).2.2.1 := by
  intro order
  induction order with
  | nil => intro d e s g1 g2; exact ⟨rfl, rfl, rfl⟩
  | cons f rest ih =>
    intro d e s g1 g2
    rw [List.foldl_cons, List.foldl_cons]
    by_cases hf : recvErr f
    · simp only [scStepOne, hf, if_true]
      exact ih d e 0 (g1 ++ [r1]) (g2 ++ [r2])
    · simp only [scStepOne, hf, Bool.false_eq_true, if_false]
      cases msgInfo.lookup ((msgInfo.map Prod.fst).getD f 0) with
      | none => exact ih d e s g1 g2
      | some infoPair => exact ih _ _ s g1 g2

theorem scStepVar_fold_rank_indep [Inhabited α]
    (sc : List (List α) → α → Nat → Nat → List (List α))
    (FORWARD : Bool) (interface : IfaceMap) (msgInfo : InformationMap)
    (recvBuffer : List α) (recvErr : Nat → Bool) (r1 r2 : Int) :
    ∀ (order : List Nat) (d : List (List α)) (e : List Event) (s : Nat)
      (g1 g2 : List Int),
      (order.foldl (scStepVar sc FORWARD r1 interface msgInfo recvBuffer recvErr)
          (d, e, s, g1)).1
        = (order.foldl (scStepVar sc FORWARD r2 interface msgInfo recvBuffer recvErr)
          (d, e, s, g2)).1
      ∧ (order.foldl (scStepVar sc FORWARD r1 interface msgInfo recvBuffer recvErr)
          (d, e, s, g1)).2.1
        = (order.foldl (scStepVar sc FORWARD r2 interface msgInfo recvBuffer recvErr)
          (d, e, s, g2)).2.1
      ∧ (order.foldl (scStepVar sc FORWARD r1 interface msgInfo recvBuffer recvErr)
          (d, e, s, g1)).2.2.1
        = (order.foldl (scStepVar sc FORWARD r2 interface msgInfo recvBuffer recvErr)
          (d, e, s, g2)).2.2.1 := by
  intro order
  induction order with
  | nil => intro d e s g1 g2; exact ⟨rfl, rfl, rfl⟩
  | cons f rest ih =>
    intro d e s g1 g2
    rw [List.foldl_cons, List.foldl_cons]
    by_cases hf : recvErr f
    · simp only [scStepVar, hf, if_true]
      exact ih d e 0 (g1 ++ [r1]) (g2 ++ [r2])
    · simp only [scStepVar, hf, Bool.false_eq_true, if_false]
      cases msgInfo.lookup ((msgInfo.map Prod.fst).getD f 0) with
      | none => exact ih d e s g1 g2
      | some infoPair => exact ih _ _ s g1 g2

theorem waitStep_fold_rank_indep (sendErr : Nat → Bool) (r1 r2 : Int) :
    ∀ (l : List Nat) (e : List Event) (s : Nat) (g1 g2 : List Int),
      (l.foldl (waitStep r1 sendErr) (e, s, g1)).1
        = (l.foldl (waitStep r2 sendErr) (e, s, g2)).1
      ∧ (l.foldl (waitStep r1 sendErr) (e, s, g1)).2.1
        = (l.foldl (waitStep r2 sendErr) (e, s, g2)).2.1 := by
  intro l
  induction l with
  | nil => intro e s g1 g2; exact ⟨rfl, rfl⟩
  | cons i rest ih =>
    intro e s g1 g2
    rw [List.foldl_cons, List.foldl_cons]
    unfold waitStep
    exact ih _ _ _ _

/-- C8: the process-rank queries in the buffered implementation do not
influence the exchanged data.  For any two rank values the queries could
return, `build` produces the same plan, the gatherers produce the same
send-buffer contents, and both `sendRecv` instantiations produce the
same final destination container, send buffer, event trace (posted
messages and scatters) and success flag — only the diagnostic output can
mention the rank. -/
theorem C8_rank_query_noninterference (α : Type) [Inhabited α]
    (gs : List α → Nat → α) (sc : List α → α → Nat → List α)
    (gv : List (List α) → Nat → Nat → α)
    (sv : List (List α) → α → Nat → Nat → List (List α))
    (FORWARD : Bool) (sz : Nat) (interface : IfaceMap) (msgInfo : InformationMap)
    (data source dest recvBuffer : List α) (vsource vdest : List (List α))
    (order : List Nat) (recvErr sendErr : Nat → Bool) (r1 r2 : Int) :
    buildOne sz r1 interface = buildOne sz r2 interface
    ∧ gatherOne gs FORWARD r1 interface data = gatherOne gs FORWARD r2 interface data
    ∧ gatherVar gv FORWARD r1 interface vsource = gatherVar gv FORWARD r2 interface vsource
    ∧ ((sendRecvOne gs sc FORWARD r1 interface msgInfo source dest recvBuffer order
          recvErr sendErr).dest
        = (sendRecvOne gs sc FORWARD r2 interface msgInfo source dest recvBuffer order
          recvErr sendErr).dest
      ∧ (sendRecvOne gs sc FORWARD r1 interface msgInfo source dest recvBuffer order
          recvErr sendErr).sendBuffer
        = (sendRecvOne gs sc FORWARD r2 interface msgInfo source dest recvBuffer order
          recvErr sendErr).sendBuffer
      ∧ (sendRecvOne gs sc FORWARD r1 interface msgInfo source dest recvBuffer order
          recvErr sendErr).events
        = (sendRecvOne gs sc FORWARD r2 interface msgInfo source dest recvBuffer order
          recvErr sendErr).events
      ∧ (sendRecvOne gs sc FORWARD r1 interface msgInfo source dest recvBuffer order
          recvErr sendErr).success
        = (sendRecvOne gs sc FORWARD r2 interface msgInfo source dest recvBuffer order
          recvErr sendErr).success)
    ∧ ((sendRecvVar gv sv FORWARD r1 interface msgInfo vsource vdest recvBuffer order
          recvErr sendErr).dest
        = (sendRecvVar gv sv FORWARD r2 interface msgInfo vsource vdest recvBuffer order
          recvErr sendErr).dest
      ∧ (sendRecvVar gv sv FORWARD r1 interface msgInfo vsource vdest recvBuffer order
          recvErr sendErr).sendBuffer
        = (sendRecvVar gv sv FORWARD r2 interface msgInfo vsource vdest recvBuffer order
          recvErr sendErr).sendBuffer
      ∧ (sendRecvVar gv sv FORWARD r1 interface msgInfo vsource vdest recvBuffer order
          recvErr sendErr).events
        = (sendRecvVar gv sv FORWARD r2 interface msgInfo vsource vdest recvBuffer order
          recvErr sendErr).events
      ∧ (sendRecvVar gv sv FORWARD r1 interface msgInfo vsource vdest recvBuffer order
          recvErr sendErr).success
        = (sendRecvVar gv sv FORWARD r2 interface msgInfo vsource vdest recvBuffer order
          recvErr sendErr).success) := by
  obtain ⟨h1, h2, h3⟩ := scStepOne_fold_rank_indep sc FORWARD interface msgInfo recvBuffer
    recvErr r1 r2 order dest [] 1 [] []
  obtain ⟨v1, v2, v3⟩ := scStepVar_fold_rank_indep sv FORWARD interface msgInfo recvBuffer
    recvErr r1 r2 order vdest [] 1 [] []
  refine ⟨rfl, rfl, rfl, ?_, ?_⟩
  · obtain ⟨w1, w2⟩ := waitStep_fold_rank_indep sendErr r1 r2 (List.range msgInfo.length)
      []
      (order.foldl (scStepOne sc FORWARD r1 interface msgInfo recvBuffer recvErr)
        (dest, [], 1, [])).2.2.1
      (order.foldl (scStepOne sc FORWARD r1 interface msgInfo recvBuffer recvErr)
        (dest, [], 1, [])).2.2.2
      (order.foldl (scStepOne sc FORWARD r2 interface msgInfo recvBuffer recvErr)
        (dest, [], 1, [])).2.2.2
    refine ⟨h1, rfl, ?_, ?_⟩
    · simp only [sendRecvOne]
      rw [← h3, h2, w1, w2, gatherOne_rank_indep gs FORWARD interface source r1 r2]
    · simp only [sendRecvOne]
      rw [← h3, w2]
  · obtain ⟨w1, w2⟩ := waitStep_fold_rank_indep sendErr r1 r2 (List.range msgInfo.length)
      []
      (order.foldl (scStepVar sv FORWARD r1 interface msgInfo recvBuffer recvErr)
        (vdest, [], 1, [])).2.2.1
      (order.foldl (scStepVar sv FORWARD r1 interface msgInfo recvBuffer recvErr)
        (vdest, [], 1, [])).2.2.2
      (order.foldl (scStepVar sv FORWARD r2 interface msgInfo recvBuffer recvErr)
        (vdest, [], 1, [])).2.2.2
    refine ⟨v1, rfl, ?_, ?_⟩
    · simp only [sendRecvVar]
      rw [← v3, v2, w1, w2, gatherVar_rank_indep gv FORWARD interface vsource r1 r2]
    · simp only [sendRecvVar]
      rw [← v3, w2]

theorem getD_map_of_lt {g : β → γ} {l : List β} {n : Nat} (h : n < l.length)
    (d : γ) (d' : β) : (l.map g).getD n d = g (l.getD n d') := by
  rw [List.getD_eq_getElem?_getD, List.getElem?_map, List.getD_eq_getElem?_getD,
    List.getElem?_eq_getElem h]
  simp [List.getElem?_eq_getElem, h]

theorem getD_mem_of_lt {l : List β} {n : Nat} (h : n < l.length) (d : β) :
    l.getD n d ∈ l := by
  rw [List.getD_eq_getElem?_getD, List.getElem?_eq_getElem h]
  exact List.getElem_mem h

theorem lookup_getD_of_nodup {β : Type} {l : List (Nat × β)}
    (h : (l.map Prod.fst).Nodup) :
    ∀ {f : Nat}, f < l.length → ∀ (d : Nat × β),
      l.lookup (l.getD f d).1 = some (l.getD f d).2 := by
  induction l with
  | nil => intro f hf; simp at hf
  | cons x xs ih =>
    intro f hf d
    cases f with
    | zero =>
      rw [List.getD_cons_zero]
      rcases x with ⟨k, b⟩
      simp [List.lookup]
    | succ f =>
      rw [List.getD_cons_succ]
      have hf' : f < xs.length := by simpa using hf
      have hkey : (xs.getD f d).1 ∈ xs.map Prod.fst :=
        List.mem_map_of_mem Prod.fst (getD_mem_of_lt hf' d)
      have hx : x.1 ∉ xs.map Prod.fst := by
        rw [List.map_cons, List.nodup_cons] at h
        exact h.1
      have hne : ((xs.getD f d).1 == x.1) = false := by
        rw [beq_eq_false_iff_ne]
        intro heq
        exact hx (heq ▸ hkey)
      rcases x with ⟨k, b⟩
      simp only at hne
      simp only [List.lookup, hne]
      exact ih (by rw [List.map_cons, List.nodup_cons] at h; exact h.2) hf' d

theorem buildFold_keys (sz : Nat) (cs cr : InterfacePair → Nat) (l : IfaceMap) :
    ((l.foldl (buildStep sz cs cr) ([], 0, 0)).1).map Prod.fst = l.map Prod.fst := by
  rw [buildFold_spec]
  simp only [List.nil_append, List.map_map]
  have : ∀ k, k ∈ List.range l.length →
      (Prod.fst ∘ fun k =>
        ((l.getD k default).1,
         (⟨0 + ((l.take k).map (fun e => cs e.2)).sum, cs (l.getD k default).2 * sz⟩ :
           MessageInformation),
         (⟨0 + ((l.take k).map (fun e => cr e.2)).sum, cr (l.getD k default).2 * sz⟩ :
           MessageInformation))) k
        = (fun k => (l.getD k default).1) k := fun k _ => rfl
  rw [List.map_congr_left this]
  have := congrArg (List.map Prod.fst) (map_range_getD l default)
  rw [List.map_map] at this
  exact this

theorem buildFold_length (sz : Nat) (cs cr : InterfacePair → Nat) (l : IfaceMap) :
    (l.foldl (buildStep sz cs cr) ([], 0, 0)).1.length = l.length := by
  rw [buildFold_spec]
  simp

theorem foldl_pair_trace (G : σ → Nat → σ) :
    ∀ (n : Nat) (d : σ) (rs : List Nat),
      ((List.range n).foldl (fun st i => (G st.1 i, st.2 ++ [i])) (d, rs)).2
        = rs ++ List.range n := by
  intro n
  induction n with
  | zero => intro d rs; simp
  | succ n ih =>
    intro d rs
    rw [List.range_succ, List.foldl_append, List.foldl_cons, List.foldl_nil]
    rcases hst : (List.range n).foldl (fun st i => (G st.1 i, st.2 ++ [i])) (d, rs)
      with ⟨d1, rs1⟩
    have := ih d rs
    rw [hst] at this
    simp only at this
    simp [this, List.range_succ]

theorem scatterOnePeer_reads [Inhabited α] (sc : List α → α → Nat → List α)
    (FORWARD : Bool) (interface : IfaceMap) (d buf : List α) (proc : Nat)
    (pair : InterfacePair) (hfind : interface.lookup proc = some pair) :
    (scatterOnePeer sc FORWARD interface d buf proc).2
      = List.range (if FORWARD then pair.second else pair.first).length := by
  unfold scatterOnePeer
  rw [hfind]
  simp only
  have := foldl_pair_trace
    (fun st i => sc st (buf.getD i default)
      ((if FORWARD then pair.second else pair.first).getD i 0))
    (if FORWARD then pair.second else pair.first).length d []
  simpa using this

theorem scatterVarPeer_preserves_sizes [Inhabited α]
    (sv : List (List α) → α → Nat → Nat → List (List α))
    (hpres : ∀ d v p j q, getSizeVar (sv d v p j) q = getSizeVar d q)
    (FORWARD : Bool) (interface : IfaceMap) (d : List (List α)) (buf : List α)
    (proc q : Nat) :
    getSizeVar (scatterVarPeer sv FORWARD interface d buf proc).1 q = getSizeVar d q := by
  unfold scatterVarPeer
  cases hl : interface.lookup proc with
  | none => rfl
  | some pair =>
    simp only
    rw [foldl_range_getD _ (scatterVarInner sv buf)]
    exact (scatterVarFold_spec sv buf hpres
      (if FORWARD then pair.second else pair.first) d 0 [] []).2.2.2 q

theorem scatterVarPeer_reads [Inhabited α]
    (sv : List (List α) → α → Nat → Nat → List (List α))
    (hpres : ∀ d v p j q, getSizeVar (sv d v p j) q = getSizeVar d q)
    (FORWARD : Bool) (interface : IfaceMap) (d : List (List α)) (buf : List α)
    (proc : Nat) (pair : InterfacePair) (hfind : interface.lookup proc = some pair) :
    (scatterVarPeer sv FORWARD interface d buf proc).2.1
      = List.range (((if FORWARD then pair.second else pair.first).map
          (getSizeVar d)).sum) := by
  unfold scatterVarPeer
  rw [hfind]
  simp only
  rw [foldl_range_getD _ (scatterVarInner sv buf)]
  have := (scatterVarFold_spec sv buf hpres
    (if FORWARD then pair.second else pair.first) d 0 [] []).2.1
  rw [this]
  simp [List.range_eq_range']

theorem waitFold_events (rank : Int) (sendErr : Nat → Bool) :
    ∀ (l : List Nat) (e : List Event) (s : Nat) (g : List Int),
      (l.foldl (waitStep rank sendErr) (e, s, g)).1 = e ++ l.map Event.waitSend := by
  intro l
  induction l with
  | nil => intro e s g; simp
  | cons i rest ih =>
    intro e s g
    rcases hw : waitStep rank sendErr (e, s, g) i with ⟨e1, s1, g1⟩
    have he : e1 = e ++ [Event.waitSend i] := by
      have := congrArg Prod.fst hw
      simpa [waitStep] using this.symm
    rw [List.foldl_cons, hw, ih e1 s1 g1, he]
    simp

theorem scFoldOne_events [Inhabited α] (sc : List α → α → Nat → List α) (rank : Int)
    (interface : IfaceMap) (m : InformationMap) (recvBuffer : List α)
    (recvErr : Nat → Bool)
    (hkeys : (interface.map Prod.fst).Nodup)
    (hmk : m.map Prod.fst = interface.map Prod.fst)
    (hml : m.length = interface.length)
    (hnoerr : ∀ i, recvErr i = false) :
    ∀ (order : List Nat), (∀ f ∈ order, f < interface.length) →
      ∀ (d : List α) (e : List Event) (s : Nat) (g : List Int),
      (order.foldl (scStepOne sc true rank interface m recvBuffer recvErr)
          (d, e, s, g)).2.1
        = e ++ order.map (fun f => Event.scatterPeer (interface.getD f default).1
            ((List.range (interface.getD f default).2.second.length).map
              (· + (m.getD f default).2.2.start_)))
      ∧ (order.foldl (scStepOne sc true rank interface m recvBuffer recvErr)
          (d, e, s, g)).2.2.1 = s
      ∧ (order.foldl (scStepOne sc true rank interface m recvBuffer recvErr)
          (d, e, s, g)).2.2.2 = g := by
  intro order
  induction order with
  | nil => intro _ d e s g; exact ⟨by simp, rfl, rfl⟩
  | cons f rest ih =>
    intro hord d e s g
    have hf : f < interface.length := hord f (List.mem_cons_self f rest)
    have hfm : f < m.length := by omega
    have hprocm : (m.map Prod.fst).getD f 0 = (m.getD f default).1 :=
      getD_map_of_lt hfm 0 default
    have hproc : (m.map Prod.fst).getD f 0 = (interface.getD f default).1 := by
      rw [hmk]; exact getD_map_of_lt hf 0 default
    have hmkeys : (m.map Prod.fst).Nodup := by rw [hmk]; exact hkeys
    have hlook : m.lookup ((m.map Prod.fst).getD f 0) = some ((m.getD f default).2) := by
      rw [hprocm]; exact lookup_getD_of_nodup hmkeys hfm default
    have hifl : interface.lookup ((m.map Prod.fst).getD f 0)
        = some ((interface.getD f default).2) := by
      rw [hproc]; exact lookup_getD_of_nodup hkeys hf default
    have hreads : (scatterOnePeer sc true interface d
        (recvBuffer.drop (m.getD f default).2.2.start_) ((m.map Prod.fst).getD f 0)).2
          = List.range (interface.getD f default).2.second.length := by
      simpa using scatterOnePeer_reads sc true interface d
        (recvBuffer.drop (m.getD f default).2.2.start_) ((m.map Prod.fst).getD f 0)
        ((interface.getD f default).2) hifl
    have hstep : scStepOne sc true rank interface m recvBuffer recvErr (d, e, s, g) f
        = ((scatterOnePeer sc true interface d
              (recvBuffer.drop (m.getD f default).2.2.start_)
              ((m.map Prod.fst).getD f 0)).1,
           e ++ [Event.scatterPeer ((m.map Prod.fst).getD f 0)
             ((List.range (interface.getD f default).2.second.length).map
               (· + (m.getD f default).2.2.start_))],
           s, g) := by
      simp only [scStepOne, hnoerr f, Bool.false_eq_true, if_false, hlook,
        eq_self_iff_true, if_true]
      rw [hreads]
    rw [List.foldl_cons, hstep]
    obtain ⟨ih1, ih2, ih3⟩ := ih (fun x hx => hord x (List.mem_cons_of_mem f hx))
      ((scatterOnePeer sc true interface d
          (recvBuffer.drop (m.getD f default).2.2.start_)
          ((m.map Prod.fst).getD f 0)).1)
      (e ++ [Event.scatterPeer ((m.map Prod.fst).getD f 0)
        ((List.range (interface.getD f default).2.second.length).map
          (· + (m.getD f default).2.2.start_))])
      s g
    refine ⟨?_, ih2, ih3⟩
    rw [ih1, hproc]
    simp [List.append_assoc]

theorem scFoldVar_events [Inhabited α]
    (sv : List (List α) → α → Nat → Nat → List (List α)) (rank : Int)
    (interface : IfaceMap) (m : InformationMap) (recvBuffer : List α)
    (recvErr : Nat → Bool)
    (hpres : ∀ d v p j q, getSizeVar (sv d v p j) q = getSizeVar d q)
    (hkeys : (interface.map Prod.fst).Nodup)
    (hmk : m.map Prod.fst = interface.map Prod.fst)
    (hml : m.length = interface.length)
    (hnoerr : ∀ i, recvErr i = false) (d0 : List (List α)) :
    ∀ (order : List Nat), (∀ f ∈ order, f < interface.length) →
      ∀ (d : List (List α)), (∀ q, getSizeVar d q = getSizeVar d0 q) →
      ∀ (e : List Event) (s : Nat) (g : List Int),
      (order.foldl (scStepVar sv true rank interface m recvBuffer recvErr)
          (d, e, s, g)).2.1
        = e ++ order.map (fun f => Event.scatterPeer (interface.getD f default).1
            ((List.range (((interface.getD f default).2.second.map
                (getSizeVar d0)).sum)).map
              (· + (m.getD f default).2.2.start_)))
      ∧ (order.foldl (scStepVar sv true rank interface m recvBuffer recvErr)
          (d, e, s, g)).2.2.1 = s
      ∧ (order.foldl (scStepVar sv true rank interface m recvBuffer recvErr)
          (d, e, s, g)).2.2.2 = g := by
  intro order
  induction order with
  | nil => intro _ d _ e s g; exact ⟨by simp, rfl, rfl⟩
  | cons f rest ih =>
    intro hord d hinv e s g
    have hf : f < interface.length := hord f (List.mem_cons_self f rest)
    have hfm : f < m.length := by omega
    have hproc : (m.map Prod.fst).getD f 0 = (interface.getD f default).1 := by
      rw [hmk]; exact getD_map_of_lt hf 0 default
    have hmkeys : (m.map Prod.fst).Nodup := by rw [hmk]; exact hkeys
    have hlook : m.lookup ((m.map Prod.fst).getD f 0) = some ((m.getD f default).2) := by
      rw [getD_map_of_lt hfm 0 default]
      exact lookup_getD_of_nodup hmkeys hfm default
    have hifl : interface.lookup ((m.map Prod.fst).getD f 0)
        = some ((interface.getD f default).2) := by
      rw [hproc]; exact lookup_getD_of_nodup hkeys hf default
    have hreads : (scatterVarPeer sv true interface d
        (recvBuffer.drop (m.getD f default).2.2.start_) ((m.map Prod.fst).getD f 0)).2.1
          = List.range (((interface.getD f default).2.second.map
              (getSizeVar d0)).sum) := by
      have h := scatterVarPeer_reads sv hpres true interface d
        (recvBuffer.drop (m.getD f default).2.2.start_) ((m.map Prod.fst).getD f 0)
        ((interface.getD f default).2) hifl
      simp only [if_true] at h
      rw [h]
      congr 1
      congr 1
      exact List.map_congr_left (fun x _ => hinv x)
    have hstep : scStepVar sv true rank interface m recvBuffer recvErr (d, e, s, g) f
        = ((scatterVarPeer sv true interface d
              (recvBuffer.drop (m.getD f default).2.2.start_)
              ((m.map Prod.fst).getD f 0)).1,
           e ++ [Event.scatterPeer ((m.map Prod.fst).getD f 0)
             ((List.range (((interface.getD f default).2.second.map
                 (getSizeVar d0)).sum)).map
               (· + (m.getD f default).2.2.start_))],
           s, g) := by
      simp only [scStepVar, hnoerr f, Bool.false_eq_true, if_false, hlook,
        eq_self_iff_true, if_true]
      rw [hreads]
    rw [List.foldl_cons, hstep]
    obtain ⟨ih1, ih2, ih3⟩ := ih (fun x hx => hord x (List.mem_cons_of_mem f hx))
      ((scatterVarPeer sv true interface d
          (recvBuffer.drop (m.getD f default).2.2.start_)
          ((m.map Prod.fst).getD f 0)).1)
      (fun q => by
        rw [scatterVarPeer_preserves_sizes sv hpres true interface d
          (recvBuffer.drop (m.getD f default).2.2.start_)
          ((m.map Prod.fst).getD f 0) q]
        exact hinv q)
      (e ++ [Event.scatterPeer ((m.map Prod.fst).getD f 0)
        ((List.range (((interface.getD f default).2.second.map
            (getSizeVar d0)).sum)).map
          (· + (m.getD f default).2.2.start_))])
      s g
    refine ⟨?_, ih2, ih3⟩
    rw [ih1, hproc]
    simp [List.append_assoc]

/-- C1: `BufferedCommunicator::forward(source, dest)` executes its steps
in the spec's order, at SizeOne and at VariableSize data: the event
trace is exactly the gatherer's buffer writes, then one non-blocking
byte-typed receive post per peer, then one non-blocking synchronous
byte-typed send post per peer, then — in completion order, whatever it
is — one scatter per completed peer reading exactly the consecutive
absolute slots of that peer's receive slab, then the waits on all sends,
then the success reduction; and each peer's recorded receive-slab byte
size is its receive element count times `sizeof(IndexedType)`. -/
theorem C1_forward_step_order (α : Type) [Inhabited α]
    (gs : List α → Nat → α) (sc : List α → α → Nat → List α)
    (gv : List (List α) → Nat → Nat → α)
    (sv : List (List α) → α → Nat → Nat → List (List α))
    (sz : Nat) (rank lrank : Int) (interface : IfaceMap)
    (source dest recvBuffer : List α)
    (vsource vdest : List (List α)) (vrecvBuffer : List α)
    (order : List Nat) (recvErr sendErr : Nat → Bool)
    (hpres : ∀ d v p j q, getSizeVar (sv d v p j) q = getSizeVar d q)
    (hkeys : (interface.map Prod.fst).Nodup)
    (horder : ∀ f ∈ order, f < interface.length)
    (hnoerr : ∀ i, recvErr i = false) :
    ((sendRecvOne gs sc true rank interface (buildOne sz lrank interface).1 source dest
        recvBuffer order recvErr sendErr).events
      = (List.range (gatherOne gs true rank interface source).length).map Event.gatherWrite
        ++ (buildOne sz lrank interface).1.map
            (fun info => Event.postRecv info.1 info.2.2.start_ info.2.2.size_)
        ++ (buildOne sz lrank interface).1.map
            (fun info => Event.postSend info.1 info.2.1.start_ info.2.1.size_)
        ++ order.map (fun f => Event.scatterPeer (interface.getD f default).1
            ((List.range (interface.getD f default).2.second.length).map
              (· + ((buildOne sz lrank interface).1.getD f default).2.2.start_)))
        ++ (List.range (buildOne sz lrank interface).1.length).map Event.waitSend
        ++ [Event.reduce (sendRecvOne gs sc true rank interface
              (buildOne sz lrank interface).1 source dest recvBuffer order recvErr
              sendErr).success]
      ∧ ∀ f ∈ order, ((buildOne sz lrank interface).1.getD f default).2.2.size_
          = (interface.getD f default).2.second.length * sz)
    ∧ ((sendRecvVar gv sv true rank interface (buildVar sz vsource vdest interface).1
        vsource vdest vrecvBuffer order recvErr sendErr).events
      = (List.range (gatherVar gv true rank interface vsource).length).map
          Event.gatherWrite
        ++ (buildVar sz vsource vdest interface).1.map
            (fun info => Event.postRecv info.1 info.2.2.start_ info.2.2.size_)
        ++ (buildVar sz vsource vdest interface).1.map
            (fun info => Event.postSend info.1 info.2.1.start_ info.2.1.size_)
        ++ order.map (fun f => Event.scatterPeer (interface.getD f default).1
            ((List.range (((interface.getD f default).2.second.map
                (getSizeVar vdest)).sum)).map
              (· + ((buildVar sz vsource vdest interface).1.getD f default).2.2.start_)))
        ++ (List.range (buildVar sz vsource vdest interface).1.length).map Event.waitSend
        ++ [Event.reduce (sendRecvVar gv sv true rank interface
              (buildVar sz vsource vdest interface).1 vsource vdest vrecvBuffer order
              recvErr sendErr).success]
      ∧ ∀ f ∈ order, ((buildVar sz vsource vdest interface).1.getD f default).2.2.size_
          = ((interface.getD f default).2.second.map (getSizeVar vdest)).sum * sz) := by
  constructor
  · have hb1 : (buildOne sz lrank interface).1
        = (interface.foldl (buildStep sz (fun p => msgSizeOne p.first)
            (fun p => msgSizeOne p.second)) ([], 0, 0)).1 := rfl
    have hmk : ((buildOne sz lrank interface).1).map Prod.fst = interface.map Prod.fst := by
      rw [hb1]; exact buildFold_keys _ _ _ interface
    have hml : (buildOne sz lrank interface).1.length = interface.length := by
      rw [hb1]; exact buildFold_length _ _ _ interface
    obtain ⟨f1, f2, f3⟩ := scFoldOne_events sc rank interface
      (buildOne sz lrank interface).1 recvBuffer recvErr hkeys hmk hml hnoerr
      order horder dest [] 1 []
    constructor
    · simp only [sendRecvOne]
      rw [f1, f2, f3]
      rw [waitFold_events rank sendErr (List.range (buildOne sz lrank interface).1.length)
        [] 1 []]
      simp [List.append_assoc]
    · intro f hf
      have hfi : f < interface.length := horder f hf
      rw [hb1, buildFold_spec]
      simp only [List.nil_append]
      rw [getD_map_range hfi]
      simp [msgSizeOne]
  · have hb1 : (buildVar sz vsource vdest interface).1
        = (interface.foldl (buildStep sz (fun p => msgSizeVar vsource p.first)
            (fun p => msgSizeVar vdest p.second)) ([], 0, 0)).1 := rfl
    have hmk : ((buildVar sz vsource vdest interface).1).map Prod.fst
        = interface.map Prod.fst := by
      rw [hb1]; exact buildFold_keys _ _ _ interface
    have hml : (buildVar sz vsource vdest interface).1.length = interface.length := by
      rw [hb1]; exact buildFold_length _ _ _ interface
    obtain ⟨f1, f2, f3⟩ := scFoldVar_events sv rank interface
      (buildVar sz vsource vdest interface).1 vrecvBuffer recvErr hpres hkeys hmk hml
      hnoerr vdest order horder vdest (fun q => rfl) [] 1 []
    constructor
    · simp only [sendRecvVar]
      rw [f1, f2, f3]
      rw [waitFold_events rank sendErr
        (List.range (buildVar sz vsource vdest interface).1.length) [] 1 []]
      simp [List.append_assoc]
    · intro f hf
      have hfi : f < interface.length := horder f hf
      rw [hb1, buildFold_spec]
      simp only [List.nil_append]
      rw [getD_map_range hfi]
      simp [msgSizeVar_eq_sum]

/-- Witness for C1 at a concrete single-peer instance. -/
theorem C1_forward_step_order_witness :
    ((sendRecvOne copyGather copyScatter true 0 [(1, ⟨[0], [1]⟩)]
        (buildOne 2 0 [(1, ⟨[0], [1]⟩)]).1 [10, 20] [0, 0]
        [7] [0] (fun _ => false) (fun _ => false)).events
      = (List.range (gatherOne copyGather true 0 [(1, ⟨[0], [1]⟩)] [10, 20]).length).map
          Event.gatherWrite
        ++ (buildOne 2 0 [(1, ⟨[0], [1]⟩)]).1.map
            (fun info => Event.postRecv info.1 info.2.2.start_ info.2.2.size_)
        ++ (buildOne 2 0 [(1, ⟨[0], [1]⟩)]).1.map
            (fun info => Event.postSend info.1 info.2.1.start_ info.2.1.size_)
        ++ ([0] : List Nat).map (fun f =>
            Event.scatterPeer (([(1, ⟨[0], [1]⟩)] : IfaceMap).getD f default).1
            ((List.range (([(1, ⟨[0], [1]⟩)] : IfaceMap).getD f default).2.second.length).map
              (· + ((buildOne 2 0 [(1, ⟨[0], [1]⟩)]).1.getD f default).2.2.start_)))
        ++ (List.range (buildOne 2 0 [(1, ⟨[0], [1]⟩)]).1.length).map Event.waitSend
        ++ [Event.reduce (sendRecvOne copyGather copyScatter true 0 [(1, ⟨[0], [1]⟩)]
              (buildOne 2 0 [(1, ⟨[0], [1]⟩)]).1 [10, 20] [0, 0] [7] [0]
              (fun _ => false) (fun _ => false)).success]
      ∧ ∀ f ∈ ([0] : List Nat),
          ((buildOne 2 0 [(1, ⟨[0], [1]⟩)]).1.getD f default).2.2.size_
          = (([(1, ⟨[0], [1]⟩)] : IfaceMap).getD f default).2.second.length * 2)
    ∧ ((sendRecvVar copyGatherVar copyScatterVar true 0 [(1, ⟨[0], [1]⟩)]
        (buildVar 2 [[1], [2, 3]] [[5, 6], [7]] [(1, ⟨[0], [1]⟩)]).1
        [[1], [2, 3]] [[5, 6], [7]] [9, 9] [0] (fun _ => false) (fun _ => false)).events
      = (List.range (gatherVar copyGatherVar true 0 [(1, ⟨[0], [1]⟩)]
            [[1], [2, 3]]).length).map Event.gatherWrite
        ++ (buildVar 2 [[1], [2, 3]] [[5, 6], [7]] [(1, ⟨[0], [1]⟩)]).1.map
            (fun info => Event.postRecv info.1 info.2.2.start_ info.2.2.size_)
        ++ (buildVar 2 [[1], [2, 3]] [[5, 6], [7]] [(1, ⟨[0], [1]⟩)]).1.map
            (fun info => Event.postSend info.1 info.2.1.start_ info.2.1.size_)
        ++ ([0] : List Nat).map (fun f =>
            Event.scatterPeer (([(1, ⟨[0], [1]⟩)] : IfaceMap).getD f default).1
            ((List.range (((([(1, ⟨[0], [1]⟩)] : IfaceMap).getD f default).2.second.map
                (getSizeVar [[5, 6], [7]])).sum)).map
              (· + ((buildVar 2 [[1], [2, 3]] [[5, 6], [7]]
                  [(1, ⟨[0], [1]⟩)]).1.getD f default).2.2.start_)))
        ++ (List.range (buildVar 2 [[1], [2, 3]] [[5, 6], [7]]
            [(1, ⟨[0], [1]⟩)]).1.length).map Event.waitSend
        ++ [Event.reduce (sendRecvVar copyGatherVar copyScatterVar true 0
              [(1, ⟨[0], [1]⟩)]
              (buildVar 2 [[1], [2, 3]] [[5, 6], [7]] [(1, ⟨[0], [1]⟩)]).1
              [[1], [2, 3]] [[5, 6], [7]] [9, 9] [0]
              (fun _ => false) (fun _ => false)).success]
      ∧ ∀ f ∈ ([0] : List Nat),
          ((buildVar 2 [[1], [2, 3]] [[5, 6], [7]] [(1, ⟨[0], [1]⟩)]).1.getD
              f default).2.2.size_
          = ((([(1, ⟨[0], [1]⟩)] : IfaceMap).getD f default).2.second.map
              (getSizeVar [[5, 6], [7]])).sum * 2) :=
  C1_forward_step_order Nat copyGather copyScatter copyGatherVar copyScatterVar
    2 0 0 [(1, ⟨[0], [1]⟩)] [10, 20] [0, 0] [7] [[1], [2, 3]] [[5, 6], [7]] [9, 9]
    [0] (fun _ => false) (fun _ => false)
    (fun d v p j q => copyScatterVar_preserves_sizes d v p j q)
    (by decide) (by decide) (fun i => rfl)

/-- Observable steps of `DatatypeCommunicator::sendRecv`: starting a
persistent request (`MPI_Startall` starts them slot by slot), the two
`MPI_Waitall` calls (sends first, then receives), and the local success
flag contributed to the `MPI_Allreduce`. -/
inductive DTEvent where
  | start (isSend : Bool) (proc : Nat)
  | waitAll (isSend : Bool)
  | reduce (success : Nat)
deriving Repr, DecidableEq

/-- The slot layout of the request array that
`DatatypeCommunicator::createRequests` fills: one `MPI_Recv_init` per
`messageTypes` entry in map order (slots `0..n-1`), then one
`MPI_Ssend_init` per entry (slots `n..2n-1`).  Each slot records
(is-send, peer rank). -/
def createRequestsLayout (procs : List Nat) : List (Bool × Nat) :=
  procs.map (fun p => (false, p)) ++ procs.map (fun p => (true, p))

/-- The local `success` flag of `DatatypeCommunicator::sendRecv`:
`success = 1`, cleared to 0 when `MPI_Waitall` on the sends reported
`MPI_ERR_IN_STATUS`, and again when the receives' `MPI_Waitall` did. -/
def dtLocalSuccess (sendFailed recvFailed : Bool) : Nat :=
  let success := 1
  let success := if sendFailed then 0 else success
  let success := if recvFailed then 0 else success
  success

/-- `DatatypeCommunicator::sendRecv(requests)`: start the first
`noMessages` requests (the receives), then the next `noMessages` (the
sends), wait for all sends, wait for all receives, compute the local
success flag (printing the rank on errors) and hand it to the
`MPI_Allreduce`.  Returns (event trace, local success flag, printed
ranks). -/
def dtSendRecv (requests : List (Bool × Nat)) (noMessages : Nat)
    (sendFailed recvFailed : Bool) (rank : Int) : List DTEvent × Nat × List Int :=
  let events := (requests.take noMessages).map (fun r => DTEvent.start r.1 r.2)
    ++ ((requests.drop noMessages).take noMessages).map (fun r => DTEvent.start r.1 r.2)
    ++ [DTEvent.waitAll true, DTEvent.waitAll false]
  let success := dtLocalSuccess sendFailed recvFailed
  let diag := (if sendFailed then [rank] else []) ++ (if recvFailed then [rank] else [])
  (events ++ [DTEvent.reduce success], success, diag)

/-- The `MPI_Allreduce(..., MPI_MIN, ...)` of one flag per process. -/
def allreduceMin : List Nat → Nat
  | [] => 1
  | x :: xs => xs.foldl Nat.min x

/-- Both communicators raise `CommunicationError` exactly when the
reduced flag is 0 (`if(!globalSuccess) DUNE_THROW(CommunicationError, ...)`). -/
def exchangeRaises (flags : List Nat) : Bool := allreduceMin flags == 0

theorem foldl_min_eq_zero (xs : List Nat) :
    ∀ x : Nat, xs.foldl Nat.min x = 0 ↔ x = 0 ∨ ∃ y ∈ xs, y = 0 := by
  induction xs with
  | nil => intro x; simp
  | cons z zs ih =>
    intro x
    rw [List.foldl_cons, ih (Nat.min x z)]
    constructor
    · rintro (h | h)
      · rcases Nat.min_eq_zero_iff.mp h with h' | h'
        · exact Or.inl h'
        · exact Or.inr ⟨z, List.mem_cons_self z zs, h'⟩
      · rcases h with ⟨y, hy, hy0⟩
        exact Or.inr ⟨y, List.mem_cons_of_mem z hy, hy0⟩
    · rintro (h | ⟨y, hy, hy0⟩)
      · exact Or.inl (by rw [h]; exact Nat.zero_min z)
      · rcases List.mem_cons.mp hy with h' | h'
        · exact Or.inl (by rw [← h', hy0]; exact Nat.min_zero x)
        · exact Or.inr ⟨y, h', hy0⟩

theorem allreduceMin_eq_zero {flags : List Nat} (h : flags ≠ []) :
    allreduceMin flags = 0 ↔ 0 ∈ flags := by
  cases flags with
  | nil => exact absurd rfl h
  | cons x xs =>
    rw [allreduceMin, foldl_min_eq_zero]
    constructor
    · rintro (h' | ⟨y, hy, hy0⟩)
      · exact h' ▸ List.mem_cons_self x xs
      · exact hy0 ▸ List.mem_cons_of_mem x hy
    · intro h'
      rcases List.mem_cons.mp h' with h'' | h''
      · exact Or.inl h''.symm
      · exact Or.inr ⟨0, h'', rfl⟩

/-- C6: `DatatypeCommunicator::forward`/`backward` execute in order:
start all persistent receive requests (the first `n` request slots, all
receives, one per peer in `messageTypes` order), then start all
persistent send requests, then wait for all sends, then wait for all
receives, then reduce the success flag with MIN and raise
`CommunicationError` exactly when any peer reported a transport error. -/
theorem C6_datatype_sendrecv_order (procs : List Nat)
    (sendFailed recvFailed : Bool) (rank : Int) :
    (dtSendRecv (createRequestsLayout procs) procs.length sendFailed recvFailed
        rank).1
      = procs.map (fun p => DTEvent.start false p)
        ++ procs.map (fun p => DTEvent.start true p)
        ++ [DTEvent.waitAll true, DTEvent.waitAll false]
        ++ [DTEvent.reduce (dtLocalSuccess sendFailed recvFailed)]
    ∧ (dtSendRecv (createRequestsLayout procs) procs.length sendFailed recvFailed
        rank).2.1 = dtLocalSuccess sendFailed recvFailed
    ∧ (∀ (flags : List Nat), flags ≠ [] →
        (exchangeRaises flags = true ↔ 0 ∈ flags))
    ∧ (dtLocalSuccess sendFailed recvFailed = 0
        ↔ (sendFailed = true ∨ recvFailed = true)) := by
  refine ⟨?_, rfl, ?_, ?_⟩
  · unfold dtSendRecv createRequestsLayout
    simp only
    have h1 : (procs.map (fun p => ((false : Bool), p))
        ++ procs.map (fun p => ((true : Bool), p))).take procs.length
        = procs.map (fun p => ((false : Bool), p)) := by
      rw [List.take_append_of_le_length (by simp)]
      exact List.take_of_length_le (by simp)
    have h2 : (procs.map (fun p => ((false : Bool), p))
        ++ procs.map (fun p => ((true : Bool), p))).drop procs.length
        = procs.map (fun p => ((true : Bool), p)) := by
      rw [List.drop_append_of_le_length (by simp)]
      simp
    rw [h1, h2, List.take_of_length_le (by simp)]
    simp only [List.map_map]
    rfl
  · intro flags hne
    rw [exchangeRaises, beq_iff_eq]
    exact allreduceMin_eq_zero hne
  · unfold dtLocalSuccess
    cases sendFailed <;> cases recvFailed <;> simp

theorem scFoldOne_success [Inhabited α] (sc : List α → α → Nat → List α)
    (FORWARD : Bool) (rank : Int) (interface : IfaceMap) (m : InformationMap)
    (recvBuffer : List α) (recvErr : Nat → Bool) :
    ∀ (order : List Nat) (d : List α) (e : List Event) (s : Nat) (g : List Int),
      (order.foldl (scStepOne sc FORWARD rank interface m recvBuffer recvErr)
          (d, e, s, g)).2.2.1
        = if order.any recvErr then 0 else s := by
  intro order
  induction order with
  | nil => intro d e s g; simp
  | cons f rest ih =>
    intro d e s g
    rw [List.foldl_cons]
    by_cases hf : recvErr f
    · have hstep : scStepOne sc FORWARD rank interface m recvBuffer recvErr (d, e, s, g) f
          = (d, e, 0, g ++ [rank]) := by
        simp [scStepOne, hf]
      rw [hstep, ih]
      simp [hf]
    · have hany : (f :: rest).any recvErr = rest.any recvErr := by
        simp [hf]
      rw [hany]
      simp only [scStepOne, hf, Bool.false_eq_true, if_false]
      cases m.lookup ((m.map Prod.fst).getD f 0) with
      | none => exact ih d e s g
      | some infoPair => exact ih _ _ s g

theorem scFoldVar_success [Inhabited α]
    (sv : List (List α) → α → Nat → Nat → List (List α))
    (FORWARD : Bool) (rank : Int) (interface : IfaceMap) (m : InformationMap)
    (recvBuffer : List α) (recvErr : Nat → Bool) :
    ∀ (order : List Nat) (d : List (List α)) (e : List Event) (s : Nat) (g : List Int),
      (order.foldl (scStepVar sv FORWARD rank interface m recvBuffer recvErr)
          (d, e, s, g)).2.2.1
        = if order.any recvErr then 0 else s := by
  intro order
  induction order with
  | nil => intro d e s g; simp
  | cons f rest ih =>
    intro d e s g
    rw [List.foldl_cons]
    by_cases hf : recvErr f
    · have hstep : scStepVar sv FORWARD rank interface m recvBuffer recvErr (d, e, s, g) f
          = (d, e, 0, g ++ [rank]) := by
        simp [scStepVar, hf]
      rw [hstep, ih]
      simp [hf]
    · have hany : (f :: rest).any recvErr = rest.any recvErr := by
        simp [hf]
      rw [hany]
      simp only [scStepVar, hf, Bool.false_eq_true, if_false]
      cases m.lookup ((m.map Prod.fst).getD f 0) with
      | none => exact ih d e s g
      | some infoPair => exact ih _ _ s g

theorem waitFold_success (rank : Int) (sendErr : Nat → Bool) :
    ∀ (l : List Nat) (e : List Event) (s : Nat) (g : List Int),
      (l.foldl (waitStep rank sendErr) (e, s, g)).2.1
        = if l.any sendErr then 0 else s := by
  intro l
  induction l with
  | nil => intro e s g; simp
  | cons i rest ih =>
    intro e s g
    rw [List.foldl_cons]
    by_cases hi : sendErr i
    · have hstep : waitStep rank sendErr (e, s, g) i
          = (e ++ [Event.waitSend i], 0, g ++ [rank]) := by
        simp [waitStep, hi]
      rw [hstep, ih]
      simp [hi]
    · have hstep : waitStep rank sendErr (e, s, g) i
          = (e ++ [Event.waitSend i], s, g) := by
        simp [waitStep, hi]
      rw [hstep, ih]
      simp [hi]

/-- C4: in both communicators an exchange raises `CommunicationError`
exactly when the MIN all-reduce of the per-process success flags yields
0.  Each process's local flag is 0 precisely when one of its sends or
receives reported a transport error and 1 otherwise — in the datatype
communicator from the two `MPI_Waitall` results, in the buffered
communicator from the per-receive and per-send waits — and since every
participant raises exactly when the one reduced value is 0, a transport
error on any single peer causes every participant's exchange to raise. -/
theorem C4_error_reduction (α : Type) [Inhabited α]
    (gs : List α → Nat → α) (sc : List α → α → Nat → List α)
    (gv : List (List α) → Nat → Nat → α)
    (sv : List (List α) → α → Nat → Nat → List (List α))
    (FORWARD : Bool) (rank : Int) (interface : IfaceMap) (m : InformationMap)
    (source dest recvBuffer : List α) (vsource vdest : List (List α))
    (vrecvBuffer : List α) (order : List Nat) (recvErr sendErr : Nat → Bool)
    (requests : List (Bool × Nat)) (noMessages : Nat) (sendFailed recvFailed : Bool) :
    (dtSendRecv requests noMessages sendFailed recvFailed rank).2.1
        = (if sendFailed || recvFailed then 0 else 1)
    ∧ (sendRecvOne gs sc FORWARD rank interface m source dest recvBuffer order
          recvErr sendErr).success
        = (if order.any recvErr || (List.range m.length).any sendErr then 0 else 1)
    ∧ (sendRecvVar gv sv FORWARD rank interface m vsource vdest vrecvBuffer order
          recvErr sendErr).success
        = (if order.any recvErr || (List.range m.length).any sendErr then 0 else 1)
    ∧ (∀ (flags : List Nat), flags ≠ [] →
        (exchangeRaises flags = true ↔ 0 ∈ flags))
    ∧ (∀ (errs : List (Bool × Bool)), errs ≠ [] →
        (exchangeRaises (errs.map (fun e => if e.1 || e.2 then 0 else 1)) = true
          ↔ ∃ e ∈ errs, e.1 = true ∨ e.2 = true)) := by
  refine ⟨?_, ?_, ?_, ?_, ?_⟩
  · unfold dtSendRecv dtLocalSuccess
    cases sendFailed <;> cases recvFailed <;> simp
  · simp only [sendRecvOne]
    rw [waitFold_success rank sendErr (List.range m.length) [] _ _,
      scFoldOne_success sc FORWARD rank interface m recvBuffer recvErr order dest [] 1 []]
    cases horder : order.any recvErr <;>
      cases hsend : (List.range m.length).any sendErr <;> simp
  · simp only [sendRecvVar]
    rw [waitFold_success rank sendErr (List.range m.length) [] _ _,
      scFoldVar_success sv FORWARD rank interface m vrecvBuffer recvErr order vdest [] 1 []]
    cases horder : order.any recvErr <;>
      cases hsend : (List.range m.length).any sendErr <;> simp
  · intro flags hne
    rw [exchangeRaises, beq_iff_eq]
    exact allreduceMin_eq_zero hne
  · intro errs hne
    rw [exchangeRaises, beq_iff_eq,
      allreduceMin_eq_zero (by simpa using hne)]
    simp only [List.mem_map]
    constructor
    · rintro ⟨e, he, heq⟩
      refine ⟨e, he, ?_⟩
      by_cases h1 : e.1
      · exact Or.inl h1
      · by_cases h2 : e.2
        · exact Or.inr h2
        · simp [h1, h2] at heq
    · rintro ⟨e, he, hor⟩
      refine ⟨e, he, ?_⟩
      rcases hor with h | h <;> simp [h]

/-- Applying a list of (position, value) writes to a container, in
order: the effect of a sequence of Copy-policy scatters. -/
def applyWrites (l : List α) (ws : List (Nat × α)) : List α :=
  ws.foldl (fun acc pv => acc.set pv.1 pv.2) l

/-- The writes a SizeOne Copy scatter of `buf` over the information list
`info` performs: the `i`-th write stores `buf[i]` at position `info[i]`. -/
def writesOf [Inhabited α] (info : List Nat) (buf : List α) : List (Nat × α) :=
  (List.range info.length).map (fun i => (info.getD i 0, buf.getD i default))

theorem applyWrites_append (l : List α) (w1 w2 : List (Nat × α)) :
    applyWrites l (w1 ++ w2) = applyWrites (applyWrites l w1) w2 :=
  List.foldl_append ..

theorem applyWrites_length (l : List α) (ws : List (Nat × α)) :
    (applyWrites l ws).length = l.length := by
  induction ws generalizing l with
  | nil => rfl
  | cons w ws ih =>
    rw [applyWrites, List.foldl_cons]
    rw [show List.foldl (fun acc pv => acc.set pv.1 pv.2) (l.set w.1 w.2) ws
      = applyWrites (l.set w.1 w.2) ws from rfl, ih]
    exact List.length_set ..

theorem applyWrites_getD_of_not_mem (l : List α) (ws : List (Nat × α)) (pos : Nat)
    (d : α) (h : pos ∉ ws.map Prod.fst) :
    (applyWrites l ws).getD pos d = l.getD pos d := by
  induction ws generalizing l with
  | nil => rfl
  | cons w ws ih =>
    rw [List.map_cons] at h
    rw [applyWrites, List.foldl_cons]
    rw [show List.foldl (fun acc pv => acc.set pv.1 pv.2) (l.set w.1 w.2) ws
      = applyWrites (l.set w.1 w.2) ws from rfl]
    rw [ih _ (fun hm => h (List.mem_cons_of_mem _ hm))]
    have hne : w.1 ≠ pos := fun he => h (he ▸ List.mem_cons_self _ _)
    simp [List.getD_eq_getElem?_getD, List.getElem?_set, hne]

theorem applyWrites_getD_of_mem (l : List α) (ws : List (Nat × α)) (pos : Nat)
    (v : α) (d : α) (hnd : (ws.map Prod.fst).Nodup) (hmem : (pos, v) ∈ ws)
    (hlt : pos < l.length) :
    (applyWrites l ws).getD pos d = v := by
  induction ws generalizing l with
  | nil => simp at hmem
  | cons w ws ih =>
    rw [List.map_cons, List.nodup_cons] at hnd
    rw [applyWrites, List.foldl_cons]
    rw [show List.foldl (fun acc pv => acc.set pv.1 pv.2) (l.set w.1 w.2) ws
      = applyWrites (l.set w.1 w.2) ws from rfl]
    rcases List.mem_cons.mp hmem with he | hm
    · subst he
      rw [applyWrites_getD_of_not_mem _ _ _ _ hnd.1]
      simp [List.getD_eq_getElem?_getD, List.getElem?_set, hlt]
    · exact ih (l.set w.1 w.2) hnd.2 hm (by rw [List.length_set]; exact hlt)

theorem applyWrites_getD_of_identity (l : List α) (ws : List (Nat × α)) (d : α)
    (hid : ∀ pv ∈ ws, pv.2 = l.getD pv.1 d) (pos : Nat) :
    (applyWrites l ws).getD pos d = l.getD pos d := by
  induction ws generalizing l with
  | nil => rfl
  | cons w ws ih =>
    rw [applyWrites, List.foldl_cons]
    rw [show List.foldl (fun acc pv => acc.set pv.1 pv.2) (l.set w.1 w.2) ws
      = applyWrites (l.set w.1 w.2) ws from rfl]
    have hpt : ∀ x, (l.set w.1 w.2).getD x d = l.getD x d := by
      intro x
      by_cases hx : w.1 = x
      · subst hx
        rcases Nat.lt_or_ge w.1 l.length with hlt | hge
        · rw [hid w (List.mem_cons_self w ws)]
          simp [List.getD_eq_getElem?_getD, List.getElem?_set, hlt]
        · rw [List.set_eq_of_length_le hge]
      · simp [List.getD_eq_getElem?_getD, List.getElem?_set, hx]
    rw [ih _ (fun pv hpv => by rw [hpt pv.1]; exact hid pv (List.mem_cons_of_mem w hpv))]
    exact hpt pos

theorem writesOf_map_fst [Inhabited α] (info : List Nat) (buf : List α) :
    (writesOf info buf).map Prod.fst = info := by
  rw [writesOf, List.map_map]
  exact map_range_getD info 0

theorem writesOf_mem [Inhabited α] (info : List Nat) (buf : List α) {k : Nat}
    (hk : k < info.length) :
    (info.getD k 0, buf.getD k default) ∈ writesOf info buf := by
  rw [writesOf]
  exact List.mem_map_of_mem _ (List.mem_range.mpr hk)

theorem writesOf_congr [Inhabited α] (info : List Nat) (buf1 buf2 : List α)
    (h : ∀ i, i < info.length → buf1.getD i default = buf2.getD i default) :
    writesOf info buf1 = writesOf info buf2 := by
  unfold writesOf
  exact List.map_congr_left (fun i hi => by rw [h i (List.mem_range.mp hi)])

theorem foldl_pair_fst (G : σ → Nat → σ) :
    ∀ (n : Nat) (d : σ) (rs : List Nat),
      ((List.range n).foldl (fun st i => (G st.1 i, st.2 ++ [i])) (d, rs)).1
        = (List.range n).foldl G d := by
  intro n
  induction n with
  | zero => intro d rs; simp
  | succ n ih =>
    intro d rs
    rw [List.range_succ, List.foldl_append, List.foldl_append, List.foldl_cons,
      List.foldl_cons, List.foldl_nil, List.foldl_nil]
    rcases hst : (List.range n).foldl (fun st i => (G st.1 i, st.2 ++ [i])) (d, rs)
      with ⟨d1, rs1⟩
    have h := ih d rs
    rw [hst] at h
    simp only at h
    simp [h]

theorem scatterOnePeer_copy_dest [Inhabited α] (FORWARD : Bool) (interface : IfaceMap)
    (d buf : List α) (proc : Nat) (pair : InterfacePair)
    (hfind : interface.lookup proc = some pair) :
    (scatterOnePeer copyScatter FORWARD interface d buf proc).1
      = applyWrites d (writesOf (if FORWARD then pair.second else pair.first) buf) := by
  unfold scatterOnePeer
  rw [hfind]
  simp only
  rw [foldl_pair_fst
    (fun dd i => copyScatter dd (buf.getD i default)
      ((if FORWARD then pair.second else pair.first).getD i 0))
    (if FORWARD then pair.second else pair.first).length d []]
  unfold applyWrites writesOf
  rw [List.foldl_map]
  rfl

theorem scFoldOne_dest [Inhabited α] (sc : List α → α → Nat → List α) (FORWARD : Bool)
    (rank : Int) (interface : IfaceMap) (m : InformationMap) (recvBuffer : List α)
    (recvErr : Nat → Bool)
    (hkeys : (interface.map Prod.fst).Nodup)
    (hmk : m.map Prod.fst = interface.map Prod.fst)
    (hml : m.length = interface.length)
    (hnoerr : ∀ i, recvErr i = false) :
    ∀ (order : List Nat), (∀ f ∈ order, f < interface.length) →
      ∀ (d : List α) (e : List Event) (s : Nat) (g : List Int),
      (order.foldl (scStepOne sc FORWARD rank interface m recvBuffer recvErr)
          (d, e, s, g)).1
        = order.foldl (fun dd f =>
            (scatterOnePeer sc FORWARD interface dd
              (recvBuffer.drop ((if FORWARD then (m.getD f default).2.2
                else (m.getD f default).2.1).start_))
              ((interface.getD f default).1)).1) d := by
  intro order
  induction order with
  | nil => intro _ d e s g; rfl
  | cons f rest ih =>
    intro hord d e s g
    have hf : f < interface.length := hord f (List.mem_cons_self f rest)
    have hfm : f < m.length := by omega
    have hproc : (m.map Prod.fst).getD f 0 = (interface.getD f default).1 := by
      rw [hmk]; exact getD_map_of_lt hf 0 default
    have hmkeys : (m.map Prod.fst).Nodup := by rw [hmk]; exact hkeys
    have hlook : m.lookup ((m.map Prod.fst).getD f 0) = some ((m.getD f default).2) := by
      rw [getD_map_of_lt hfm 0 default]
      exact lookup_getD_of_nodup hmkeys hfm default
    have hstep : scStepOne sc FORWARD rank interface m recvBuffer recvErr (d, e, s, g) f
        = ((scatterOnePeer sc FORWARD interface d
              (recvBuffer.drop ((if FORWARD then (m.getD f default).2.2
                else (m.getD f default).2.1).start_))
              ((interface.getD f default).1)).1,
           e ++ [Event.scatterPeer ((m.map Prod.fst).getD f 0)
             (((scatterOnePeer sc FORWARD interface d
               (recvBuffer.drop ((if FORWARD then (m.getD f default).2.2
                 else (m.getD f default).2.1).start_))
               ((interface.getD f default).1)).2).map
               (· + ((if FORWARD then (m.getD f default).2.2
                 else (m.getD f default).2.1).start_)))],
           s, g) := by
      simp only [scStepOne, hnoerr f, Bool.false_eq_true, if_false, hlook]
      rw [hproc]
    rw [List.foldl_cons, List.foldl_cons, hstep]
    exact ih (fun x hx => hord x (List.mem_cons_of_mem f hx)) _ _ s g

theorem flatten_drop_getD [Inhabited α] (bs : List (List α)) :
    ∀ (f : Nat), f < bs.length → ∀ (i : Nat), i < (bs.getD f []).length →
      (bs.flatten.drop (((bs.take f).map List.length).sum)).getD i default
        = (bs.getD f []).getD i default := by
  induction bs with
  | nil => intro f hf; simp at hf
  | cons b bs ih =>
    intro f hf i hi
    cases f with
    | zero =>
      simp only [List.take_zero, List.map_nil, List.sum_nil, List.drop_zero,
        List.getD_cons_zero, List.flatten_cons]
      rw [List.getD_cons_zero] at hi
      rw [List.getD_eq_getElem?_getD, List.getElem?_append_left hi,
        ← List.getD_eq_getElem?_getD]
    | succ f =>
      simp only [List.take_succ_cons, List.map_cons, List.sum_cons,
        List.getD_cons_succ, List.flatten_cons]
      rw [List.getD_cons_succ] at hi
      have hf' : f < bs.length := by simpa using hf
      rw [List.drop_append]
      exact ih f hf' i hi

/-- A multi-process world for the buffered exchange: `nprocs` processes,
each with its own interface (an association list over its peers, in map
order), its map from local positions to cluster-wide global indices
(spec section 3: unique within one process), and its source and
destination containers (kept disjoint, as the claim requires). -/
structure World (α : Type) where
  nprocs : Nat
  iface : Nat → IfaceMap
  globalOf : Nat → Nat → Nat
  source : Nat → List α
  dest : Nat → List α

/-- Process `p`'s send list towards peer `q`. -/
def sendL (w : World α) (p q : Nat) : List Nat :=
  (((w.iface p).lookup q).getD default).first

/-- Process `p`'s receive list for peer `q`. -/
def recvL (w : World α) (p q : Nat) : List Nat :=
  (((w.iface p).lookup q).getD default).second

/-- The peers of process `p`, in interface-iteration order. -/
def peersOf (w : World α) (p : Nat) : List Nat := (w.iface p).map Prod.fst

/-- The forward wire message from process `q` to process `p`: the slab
of `q`'s gathered send buffer addressed to `p`, i.e. the Copy gather of
`q`'s send list towards `p`, in list order. -/
def msgF [Inhabited α] (w : World α) (q p : Nat) : List α :=
  (sendL w q p).map (copyGather (w.source q))

/-- Process `p`'s receive buffer after all forward receives completed:
each peer's wire message sits in that peer's slab, peers in interface
order — exactly how the byte-typed `MPI_Irecv` calls laid them out. -/
def recvBufferF [Inhabited α] (w : World α) (p : Nat) : List α :=
  ((w.iface p).map (fun e => msgF w e.1 p)).flatten

/-- Process `p`'s destination container after
`BufferedCommunicator::forward<CopyGatherScatter>(source, dest)` with
receive-completion order `ordF p` (a permutation of the request
indices) and no transport errors. -/
def worldForward [Inhabited α] (sz : Nat) (w : World α) (ordF : Nat → List Nat)
    (p : Nat) : List α :=
  (forwardTwo copyGather copyScatter 0 (w.iface p) (buildOne sz 0 (w.iface p)).1
    (w.source p) (w.dest p) (recvBufferF w p) (ordF p)
    (fun _ => false) (fun _ => false)).dest

/-- The backward wire message from process `q` to process `p`: the Copy
gather of `q`'s receive list towards `p` out of `q`'s (post-forward)
destination container `dest' q`. -/
def msgB [Inhabited α] (w : World α) (dest' : Nat → List α) (q p : Nat) : List α :=
  (recvL w q p).map (copyGather (dest' q))

/-- Process `p`'s receive buffer after all backward receives completed. -/
def recvBufferB [Inhabited α] (w : World α) (dest' : Nat → List α) (p : Nat) : List α :=
  ((w.iface p).map (fun e => msgB w dest' e.1 p)).flatten

/-- Process `p`'s source container after
`BufferedCommunicator::backward<CopyGatherScatter>(source, dest)` run on
the post-forward destination containers `dest'`. -/
def worldBackward [Inhabited α] (sz : Nat) (w : World α) (dest' : Nat → List α)
    (ordB : Nat → List Nat) (p : Nat) : List α :=
  (backwardTwo copyGather copyScatter 0 (w.iface p) (buildOne sz 0 (w.iface p)).1
    (w.source p) (dest' p) (recvBufferB w dest' p) (ordB p)
    (fun _ => false) (fun _ => false)).dest

/-- The spec's notion of a symmetric interface over a world (section
4.2): peer membership is symmetric and within every peer pair the send
list on one side projects, under the processes' global-index maps, to
the same global-index sequence as the receive list on the other side,
and vice versa; all peers belong to the process group. -/
def SymmetricW (w : World α) : Prop :=
  (∀ p, p < w.nprocs → ((w.iface p).map Prod.fst).Nodup)
  ∧ (∀ p, p < w.nprocs → ∀ q ∈ peersOf w p, q < w.nprocs)
  ∧ (∀ p, p < w.nprocs → ∀ q, q < w.nprocs →
      (q ∈ peersOf w p ↔ p ∈ peersOf w q))
  ∧ (∀ p, p < w.nprocs → ∀ q, q < w.nprocs →
      (sendL w p q).map (w.globalOf p) = (recvL w q p).map (w.globalOf q)
      ∧ (recvL w p q).map (w.globalOf p) = (sendL w q p).map (w.globalOf q))

/-- No local position of a process appears in the receive lists of two
different peers (nor twice in one list). -/
def RecvDisjoint (w : World α) : Prop :=
  ∀ p, p < w.nprocs → (((w.iface p).map (fun e => e.2.second)).flatten).Nodup

/-- All listed positions are in bounds of the respective containers. -/
def WorldInBounds (w : World α) : Prop :=
  ∀ p, p < w.nprocs → ∀ q ∈ peersOf w p,
    (∀ i ∈ sendL w p q, i < (w.source p).length)
    ∧ (∀ i ∈ recvL w p q, i < (w.dest p).length)

theorem foldl_congr_mem {f g : σ → Nat → σ} :
    ∀ (l : List Nat), (∀ s x, x ∈ l → f s x = g s x) → ∀ s, l.foldl f s = l.foldl g s := by
  intro l
  induction l with
  | nil => intro _ s; rfl
  | cons x xs ih =>
    intro h s
    rw [List.foldl_cons, List.foldl_cons, h s x (List.mem_cons_self x xs)]
    exact ih (fun s' y hy => h s' y (List.mem_cons_of_mem x hy)) _

theorem foldl_applyWrites (W : Nat → List (Nat × α)) :
    ∀ (order : List Nat) (d : List α),
      order.foldl (fun dd f => applyWrites dd (W f)) d
        = applyWrites d (order.flatMap W) := by
  intro order
  induction order with
  | nil => intro d; rfl
  | cons f rest ih =>
    intro d
    rw [List.foldl_cons, List.flatMap_cons, applyWrites_append, ih]

theorem worldForward_eq [Inhabited α] (sz : Nat) (w : World α) (ordF : Nat → List Nat)
    (p : Nat)
    (hkeys : ((w.iface p).map Prod.fst).Nodup)
    (hord : ∀ f ∈ ordF p, f < (w.iface p).length)
    (hlen : ∀ e ∈ w.iface p, (sendL w e.1 p).length = e.2.second.length) :
    worldForward sz w ordF p
      = applyWrites (w.dest p)
          ((ordF p).flatMap (fun f =>
            writesOf ((w.iface p).getD f default).2.second
              (msgF w ((w.iface p).getD f default).1 p))) := by
  have hb1 : (buildOne sz 0 (w.iface p)).1
      = ((w.iface p).foldl (buildStep sz (fun pr => msgSizeOne pr.first)
          (fun pr => msgSizeOne pr.second)) ([], 0, 0)).1 := rfl
  have hmk : ((buildOne sz 0 (w.iface p)).1).map Prod.fst = (w.iface p).map Prod.fst := by
    rw [hb1]; exact buildFold_keys _ _ _ _
  have hml : (buildOne sz 0 (w.iface p)).1.length = (w.iface p).length := by
    rw [hb1]; exact buildFold_length _ _ _ _
  unfold worldForward forwardTwo
  show (sendRecvOne copyGather copyScatter true 0 (w.iface p)
      (buildOne sz 0 (w.iface p)).1 (w.source p) (w.dest p) (recvBufferF w p) (ordF p)
      (fun _ => false) (fun _ => false)).dest = _
  simp only [sendRecvOne]
  rw [scFoldOne_dest copyScatter true 0 (w.iface p) (buildOne sz 0 (w.iface p)).1
    (recvBufferF w p) (fun _ => false) hkeys hmk hml (fun _ => rfl) (ordF p) hord
    (w.dest p) [] 1 []]
  rw [foldl_congr_mem (ordF p) ?_ (w.dest p)]
  · exact foldl_applyWrites _ (ordF p) (w.dest p)
  · intro dd f hfo
    have hf : f < (w.iface p).length := hord f hfo
    have hfind : (w.iface p).lookup (((w.iface p).getD f default).1)
        = some (((w.iface p).getD f default).2) :=
      lookup_getD_of_nodup hkeys hf default
    rw [scatterOnePeer_copy_dest true (w.iface p) dd _ _ _ hfind]
    simp only [if_true]
    congr 1
    have hstart : ((buildOne sz 0 (w.iface p)).1.getD f default).2.2.start_
        = (((w.iface p).take f).map (fun e => msgSizeOne e.2.second)).sum := by
      rw [hb1, buildFold_spec]
      simp only [List.nil_append]
      rw [getD_map_range hf]
      simp
    have hbs : (((((w.iface p).map (fun e => msgF w e.1 p)).take f).map
        List.length).sum) = (((w.iface p).take f).map (fun e => msgSizeOne e.2.second)).sum := by
      rw [← List.map_take, List.map_map]
      apply congrArg
      apply List.map_congr_left
      intro e he
      have : e ∈ w.iface p := List.mem_of_mem_take he
      simp only [Function.comp, msgF, List.length_map, msgSizeOne]
      exact hlen e this
    have hblock : (((w.iface p).map (fun e => msgF w e.1 p)).getD f [])
        = msgF w (((w.iface p).getD f default).1) p := by
      exact getD_map_of_lt hf [] default
    have hblen : (msgF w (((w.iface p).getD f default).1) p).length
        = ((w.iface p).getD f default).2.second.length := by
      rw [msgF, List.length_map]
      exact hlen _ (getD_mem_of_lt hf default)
    apply writesOf_congr
    intro i hi
    rw [recvBufferF, hstart, ← hbs]
    rw [flatten_drop_getD _ f (by simpa using hf) i
      (by rw [hblock, hblen]; exact hi)]
    rw [hblock]

theorem worldBackward_eq [Inhabited α] (sz : Nat) (w : World α)
    (dest' : Nat → List α) (ordB : Nat → List Nat) (p : Nat)
    (hkeys : ((w.iface p).map Prod.fst).Nodup)
    (hord : ∀ f ∈ ordB p, f < (w.iface p).length)
    (hlen : ∀ e ∈ w.iface p, (recvL w e.1 p).length = e.2.first.length) :
    worldBackward sz w dest' ordB p
      = applyWrites (w.source p)
          ((ordB p).flatMap (fun f =>
            writesOf ((w.iface p).getD f default).2.first
              (msgB w dest' ((w.iface p).getD f default).1 p))) := by
  have hb1 : (buildOne sz 0 (w.iface p)).1
      = ((w.iface p).foldl (buildStep sz (fun pr => msgSizeOne pr.first)
          (fun pr => msgSizeOne pr.second)) ([], 0, 0)).1 := rfl
  have hmk : ((buildOne sz 0 (w.iface p)).1).map Prod.fst = (w.iface p).map Prod.fst := by
    rw [hb1]; exact buildFold_keys _ _ _ _
  have hml : (buildOne sz 0 (w.iface p)).1.length = (w.iface p).length := by
    rw [hb1]; exact buildFold_length _ _ _ _
  unfold worldBackward backwardTwo
  show (sendRecvOne copyGather copyScatter false 0 (w.iface p)
      (buildOne sz 0 (w.iface p)).1 (dest' p) (w.source p) (recvBufferB w dest' p)
      (ordB p) (fun _ => false) (fun _ => false)).dest = _
  simp only [sendRecvOne]
  rw [scFoldOne_dest copyScatter false 0 (w.iface p) (buildOne sz 0 (w.iface p)).1
    (recvBufferB w dest' p) (fun _ => false) hkeys hmk hml (fun _ => rfl) (ordB p) hord
    (w.source p) [] 1 []]
  rw [foldl_congr_mem (ordB p) ?_ (w.source p)]
  · exact foldl_applyWrites _ (ordB p) (w.source p)
  · intro dd f hfo
    have hf : f < (w.iface p).length := hord f hfo
    have hfind : (w.iface p).lookup (((w.iface p).getD f default).1)
        = some (((w.iface p).getD f default).2) :=
      lookup_getD_of_nodup hkeys hf default
    rw [scatterOnePeer_copy_dest false (w.iface p) dd _ _ _ hfind]
    simp only [Bool.false_eq_true, if_false]
    congr 1
    have hstart : ((buildOne sz 0 (w.iface p)).1.getD f default).2.1.start_
        = (((w.iface p).take f).map (fun e => msgSizeOne e.2.first)).sum := by
      rw [hb1, buildFold_spec]
      simp only [List.nil_append]
      rw [getD_map_range hf]
      simp
    have hbs : (((((w.iface p).map (fun e => msgB w dest' e.1 p)).take f).map
        List.length).sum) = (((w.iface p).take f).map (fun e => msgSizeOne e.2.first)).sum := by
      rw [← List.map_take, List.map_map]
      apply congrArg
      apply List.map_congr_left
      intro e he
      have : e ∈ w.iface p := List.mem_of_mem_take he
      simp only [Function.comp, msgB, List.length_map, msgSizeOne]
      exact hlen e this
    have hblock : (((w.iface p).map (fun e => msgB w dest' e.1 p)).getD f [])
        = msgB w dest' (((w.iface p).getD f default).1) p := by
      exact getD_map_of_lt hf [] default
    have hblen : (msgB w dest' (((w.iface p).getD f default).1) p).length
        = ((w.iface p).getD f default).2.first.length := by
      rw [msgB, List.length_map]
      exact hlen _ (getD_mem_of_lt hf default)
    apply writesOf_congr
    intro i hi
    rw [recvBufferB, hstart, ← hbs]
    rw [flatten_drop_getD _ f (by simpa using hf) i
      (by rw [hblock, hblen]; exact hi)]
    rw [hblock]

theorem lookup_of_mem_nodup {β : Type} {l : List (Nat × β)}
    (h : (l.map Prod.fst).Nodup) {e : Nat × β} (he : e ∈ l) :
    l.lookup e.1 = some e.2 := by
  obtain ⟨n, hn, hne⟩ := List.mem_iff_getElem.mp he
  have hgd : l.getD n e = e := by
    rw [List.getD_eq_getElem l e hn]; exact hne
  have := lookup_getD_of_nodup h hn e
  rw [hgd] at this
  exact this

theorem range_flatMap_blocks (g : Nat × InterfacePair → List Nat) (iface : IfaceMap) :
    (List.range iface.length).flatMap (fun f => g (iface.getD f default))
      = (iface.map g).flatten := by
  rw [List.flatMap_def]
  congr 1
  have : (List.range iface.length).map (fun f => g (iface.getD f default))
      = ((List.range iface.length).map (fun f => iface.getD f default)).map g := by
    rw [List.map_map]
    rfl
  rw [this, map_range_getD]

theorem worldForward_getD_recv [Inhabited α] (sz : Nat) (w : World α)
    (ordF : Nat → List Nat) (p q : Nat)
    (hkeys : ((w.iface p).map Prod.fst).Nodup)
    (hperm : (ordF p).Perm (List.range (w.iface p).length))
    (hlen : ∀ e ∈ w.iface p, (sendL w e.1 p).length = e.2.second.length)
    (hdisj : (((w.iface p).map (fun e => e.2.second)).flatten).Nodup)
    (hq : q ∈ peersOf w p)
    {k : Nat} (hk : k < (recvL w p q).length)
    (hbound : (recvL w p q).getD k 0 < (w.dest p).length) :
    (worldForward sz w ordF p).getD ((recvL w p q).getD k 0) default
      = (w.source q).getD ((sendL w q p).getD k 0) default := by
  have hord : ∀ f ∈ ordF p, f < (w.iface p).length := by
    intro f hf
    exact List.mem_range.mp (hperm.mem_iff.mp hf)
  rw [worldForward_eq sz w ordF p hkeys hord hlen]
  obtain ⟨f, hfl, hfe⟩ := List.mem_iff_getElem.mp hq
  simp only [peersOf] at hfl hfe
  have hf : f < (w.iface p).length := by simpa using hfl
  have hkey : ((w.iface p).getD f default).1 = q := by
    have h1 : (((w.iface p).map Prod.fst).getD f 0) = q := by
      rw [List.getD_eq_getElem _ 0 hfl]; exact hfe
    rw [getD_map_of_lt hf 0 default] at h1
    exact h1
  have hlookup : (w.iface p).lookup q = some ((w.iface p).getD f default).2 := by
    rw [← hkey]
    exact lookup_getD_of_nodup hkeys hf default
  have hrecv : recvL w p q = ((w.iface p).getD f default).2.second := by
    rw [recvL, hlookup]
    rfl
  have hslen : (sendL w q p).length = (recvL w p q).length := by
    rw [hrecv]
    have := hlen _ (getD_mem_of_lt hf default)
    rw [hkey] at this
    exact this
  have hfst : (((ordF p).flatMap (fun f =>
      writesOf ((w.iface p).getD f default).2.second
        (msgF w ((w.iface p).getD f default).1 p))).map Prod.fst)
      = (ordF p).flatMap (fun f => ((w.iface p).getD f default).2.second) := by
    rw [List.map_flatMap]
    apply List.flatMap_congr
    intro f _
    exact writesOf_map_fst _ _
  apply applyWrites_getD_of_mem
  · rw [hfst]
    have hperm2 := hperm.flatMap_right
      (fun f => ((w.iface p).getD f default).2.second)
    rw [range_flatMap_blocks (fun e => e.2.second) (w.iface p)] at hperm2
    exact hperm2.nodup_iff.mpr hdisj
  · apply List.mem_flatMap.mpr
    refine ⟨f, hperm.mem_iff.mpr (List.mem_range.mpr hf), ?_⟩
    have hv : (msgF w ((w.iface p).getD f default).1 p).getD k default
        = (w.source q).getD ((sendL w q p).getD k 0) default := by
      rw [hkey, msgF]
      rw [getD_map_of_lt (by rw [hslen]; exact hk) default 0]
      rfl
    rw [← hv, ← hrecv]
    have hk2 : k < ((w.iface p).getD f default).2.second.length := by
      rw [← hrecv]; exact hk
    have := writesOf_mem ((w.iface p).getD f default).2.second
      (msgF w ((w.iface p).getD f default).1 p) hk2
    rw [← hrecv] at this
    exact this
  · exact hbound

/-- C5 (amended): for every symmetric interface in which no local
position appears in the receive lists of two different peers, executing
`forward` with the Copy policy and then `backward` with the same policy
on disjoint source and destination containers restores the source
container exactly (hence at every exchanged position), and every
position not in any receive list keeps its original value in the
destination container (the source is written only by the backward phase,
and with its original values). -/
theorem C5_roundtrip_restores_source (α : Type) [Inhabited α] (sz : Nat)
    (w : World α) (ordF ordB : Nat → List Nat)
    (hsym : SymmetricW w) (hdisj : RecvDisjoint w) (hbounds : WorldInBounds w)
    (hordF : ∀ p, p < w.nprocs → (ordF p).Perm (List.range (w.iface p).length))
    (hordB : ∀ p, p < w.nprocs → (ordB p).Perm (List.range (w.iface p).length)) :
    ∀ p, p < w.nprocs →
      worldBackward sz w (worldForward sz w ordF) ordB p = w.source p
      ∧ (∀ pos (d : α), pos ∉ ((w.iface p).map (fun e => e.2.second)).flatten →
          (worldForward sz w ordF p).getD pos d = (w.dest p).getD pos d) := by
  obtain ⟨hnd, hpb, hsif, hmaps⟩ := hsym
  have hlenF : ∀ r, r < w.nprocs →
      ∀ e ∈ w.iface r, (sendL w e.1 r).length = e.2.second.length := by
    intro r hr e he
    have hq : e.1 ∈ peersOf w r := List.mem_map_of_mem Prod.fst he
    have hqn : e.1 < w.nprocs := hpb r hr e.1 hq
    have hrecv : recvL w r e.1 = e.2.second := by
      rw [recvL, lookup_of_mem_nodup (hnd r hr) he]
      rfl
    have hm := (hmaps r hr e.1 hqn).2
    have hlm := congrArg List.length hm
    rw [List.length_map, List.length_map] at hlm
    rw [← hrecv]
    exact hlm.symm
  have hlenB : ∀ r, r < w.nprocs →
      ∀ e ∈ w.iface r, (recvL w e.1 r).length = e.2.first.length := by
    intro r hr e he
    have hq : e.1 ∈ peersOf w r := List.mem_map_of_mem Prod.fst he
    have hqn : e.1 < w.nprocs := hpb r hr e.1 hq
    have hsend : sendL w r e.1 = e.2.first := by
      rw [sendL, lookup_of_mem_nodup (hnd r hr) he]
      rfl
    have hm := (hmaps r hr e.1 hqn).1
    have hlm := congrArg List.length hm
    rw [List.length_map, List.length_map] at hlm
    rw [← hsend]
    exact hlm.symm
  intro p hp
  have hordBmem : ∀ f ∈ ordB p, f < (w.iface p).length := fun f hf =>
    List.mem_range.mp ((hordB p hp).mem_iff.mp hf)
  have hordFmem : ∀ f ∈ ordF p, f < (w.iface p).length := fun f hf =>
    List.mem_range.mp ((hordF p hp).mem_iff.mp hf)
  constructor
  · rw [worldBackward_eq sz w (worldForward sz w ordF) ordB p (hnd p hp) hordBmem
      (hlenB p hp)]
    have hid : ∀ pv ∈ (ordB p).flatMap (fun f =>
        writesOf ((w.iface p).getD f default).2.first
          (msgB w (worldForward sz w ordF) ((w.iface p).getD f default).1 p)),
        pv.2 = (w.source p).getD pv.1 default := by
      intro pv hpv
      obtain ⟨f, hford, hpvw⟩ := List.mem_flatMap.mp hpv
      have hf : f < (w.iface p).length := hordBmem f hford
      obtain ⟨k, hkr, hke⟩ := List.mem_map.mp hpvw
      have hk : k < ((w.iface p).getD f default).2.first.length := List.mem_range.mp hkr
      have hent : (w.iface p).getD f default ∈ w.iface p := getD_mem_of_lt hf default
      have hq : ((w.iface p).getD f default).1 ∈ peersOf w p :=
        List.mem_map_of_mem Prod.fst hent
      have hqn : ((w.iface p).getD f default).1 < w.nprocs := hpb p hp _ hq
      have hsend : sendL w p (((w.iface p).getD f default).1)
          = ((w.iface p).getD f default).2.first := by
        rw [sendL, lookup_of_mem_nodup (hnd p hp) hent]
        rfl
      have hrlen : (recvL w (((w.iface p).getD f default).1) p).length
          = ((w.iface p).getD f default).2.first.length :=
        hlenB p hp _ hent
      have hvq : (msgB w (worldForward sz w ordF) (((w.iface p).getD f default).1)
          p).getD k default
          = (worldForward sz w ordF (((w.iface p).getD f default).1)).getD
            ((recvL w (((w.iface p).getD f default).1) p).getD k 0) default := by
        rw [msgB, getD_map_of_lt (by rw [hrlen]; exact hk) default 0]
        rfl
      have hfv := worldForward_getD_recv sz w ordF (((w.iface p).getD f default).1) p
        (hnd _ hqn) (hordF _ hqn) (hlenF _ hqn) (hdisj _ hqn)
        ((hsif p hp _ hqn).mp hq)
        (k := k) (by rw [hrlen]; exact hk)
        ((hbounds _ hqn p ((hsif p hp _ hqn).mp hq)).2 _
          (getD_mem_of_lt (by rw [hrlen]; exact hk) 0))
      rw [← hke]
      simp only
      rw [hvq, hfv, hsend]
    apply List.ext_getElem (applyWrites_length ..)
    intro i h1 h2
    rw [← List.getD_eq_getElem _ default h1, ← List.getD_eq_getElem _ default h2]
    exact applyWrites_getD_of_identity _ _ default hid i
  · intro pos d hpos
    rw [worldForward_eq sz w ordF p (hnd p hp) hordFmem (hlenF p hp)]
    apply applyWrites_getD_of_not_mem
    intro hmem
    apply hpos
    have hfst : (((ordF p).flatMap (fun f =>
        writesOf ((w.iface p).getD f default).2.second
          (msgF w ((w.iface p).getD f default).1 p))).map Prod.fst)
        = (ordF p).flatMap (fun f => ((w.iface p).getD f default).2.second) := by
      rw [List.map_flatMap]
      apply List.flatMap_congr
      intro f _
      exact writesOf_map_fst _ _
    rw [hfst] at hmem
    obtain ⟨f, hford, hposf⟩ := List.mem_flatMap.mp hmem
    have hf : f < (w.iface p).length := hordFmem f hford
    exact List.mem_flatten.mpr
      ⟨((w.iface p).getD f default).2.second,
       List.mem_map_of_mem (fun e => e.2.second) (getD_mem_of_lt hf default), hposf⟩

/-- Three processes all sharing one logical entry: every process holds
global index 0 at local position 0 and exchanges it with both other
peers (a symmetric overlap-style interface).  Position 0 appears in the
receive lists of two different peers on every process. -/
def w3 : World Nat where
  nprocs := 3
  iface := fun p =>
    if p = 0 then [(1, ⟨[0], [0]⟩), (2, ⟨[0], [0]⟩)]
    else if p = 1 then [(0, ⟨[0], [0]⟩), (2, ⟨[0], [0]⟩)]
    else if p = 2 then [(0, ⟨[0], [0]⟩), (1, ⟨[0], [0]⟩)]
    else []
  globalOf := fun _ pos => pos
  source := fun p => if p = 0 then [10] else if p = 1 then [20] else
    if p = 2 then [30] else []
  dest := fun _ => [0]

/-- A fixed receive-completion order: both request slots in slot order. -/
def ordTwo : Nat → List Nat := fun _ => [0, 1]

/-- Counterexample to C5 as stated: on the symmetric, in-bounds world
`w3` (a local position received from two different peers), forward then
backward with the Copy policy does not restore the source value at the
exchanged position 0 of process 0. -/
theorem C5_counterexample_shared_recv_position :
    SymmetricW w3 ∧ WorldInBounds w3
    ∧ (∀ p, p < w3.nprocs → (ordTwo p).Perm (List.range (w3.iface p).length))
    ∧ (0 ∈ sendL w3 0 1
       ∧ (worldBackward 1 w3 (worldForward 1 w3 ordTwo) ordTwo 0).getD 0 0
          ≠ (w3.source 0).getD 0 0) := by
  refine ⟨⟨by decide, by decide, by decide, by decide⟩, ?_, by decide, by decide,
    by decide⟩
  unfold WorldInBounds
  decide

/-- Two processes exchanging one owner/copy-style entry each: process
`p` sends its position 0 and receives into position 1; the global-index
maps make the interface symmetric and no position is received from two
peers. -/
def wOK : World Nat where
  nprocs := 2
  iface := fun p =>
    if p = 0 then [(1, ⟨[0], [1]⟩)] else if p = 1 then [(0, ⟨[0], [1]⟩)] else []
  globalOf := fun p pos => if p = 0 then pos else 1 - pos
  source := fun p => [100 + p, 0]
  dest := fun _ => [0, 0]

/-- The single receive request completes first (and only). -/
def ordOne : Nat → List Nat := fun _ => [0]

/-- Witness for the amended C5 at process 0 of the two-process world. -/
theorem C5_roundtrip_restores_source_witness :
    worldBackward 1 wOK (worldForward 1 wOK ordOne) ordOne 0 = wOK.source 0
    ∧ (∀ pos (d : Nat), pos ∉ ((wOK.iface 0).map (fun e => e.2.second)).flatten →
        (worldForward 1 wOK ordOne 0).getD pos d = (wOK.dest 0).getD pos d) :=
  C5_roundtrip_restores_source Nat 1 wOK ordOne ordOne
    ⟨by decide, by decide, by decide, by decide⟩
    (by unfold RecvDisjoint; decide)
    (by unfold WorldInBounds; decide)
    (by decide) (by decide) 0 (by decide)
